import Mathlib

/-!
Verification of the k2000 MIDI SysEx codec and transaction client.

This file shallowly embeds the Python sources of the `k2000` package:

* `k2000/encoding.py` — the n-bit packer (`encode_n`, `decode_n`);
* `k2000/messages.py` — the SysEx message catalog (`SysexMessage.encode`,
  `SysexMessage.decode` and every message variant's body codec);
* `k2000/client.py` — the polling transaction loop
  (`K2BaseClient._send_and_receive`) and the indexed object proxy
  (`K2ObjectProxy.__getitem__` / `__setitem__`).

Bytes are modelled as `List Nat` (each entry intended `< 256`; the wire
bytes produced by the codec are `< 128`).  Python exceptions are modelled
by `Except PyErr`.  Machine arithmetic in the sources is plain Python
big-integer arithmetic, so `Nat`/`Int` model it exactly.  The only
floating-point computations in the sources are `timeout / 0.01` in the
client (modelled as exact rational division; IEEE rounding of this single
division cannot change any fact proved below at the rational inputs used)
and `math.ceil(len * 8 / n)` for n ∈ {4, 7} (exact for all lengths below
2^21 admitted by the 3-byte size field, so modelled as exact ceiling
division).
-/

/-- Python exceptions raised by the codec, by kind.  `checksumMismatch`
keeps the two values named in the message of the `ValueError` raised by
`Load._decode_body`/`Write._decode_body`. -/
inductive PyErr
  | valueError
  | typeError
  | indexError
  | checksumMismatch (calculated : Nat) (encoded : Nat)
  | assertError
  deriving DecidableEq, Repr

deriving instance DecidableEq for Except

/-- The argument accepted by `encode_n`: a Python `int`, a `bytes` buffer,
or any other object (which `encode_n` rejects with `TypeError`). -/
inductive EncodeValue
  | int (i : Int)
  | bytes (bs : List Nat)
  | other
  deriving DecidableEq, Repr

/-- `int.from_bytes(bs, "big")`, generalised to n-bit digits: the value of
`bs` read as big-endian base-`2^n` digits.  (`chunksVal 8` is exactly
`int.from_bytes`.) -/
def chunksVal (n : Nat) (bs : List Nat) : Nat :=
  bs.foldl (fun a c => a * 2 ^ n + c) 0

/-- `int.from_bytes(bs, "big")` from the Python standard library. -/
def int_from_bytes (bs : List Nat) : Nat :=
  chunksVal 8 bs

/-- The pure chunking step of `encoding.encode_n`:
`bytes([(value >> (n * i)) & ((2**n) - 1) for i in reversed(range(num_bytes))])`. -/
def encodeChunks (value num_bytes n : Nat) : List Nat :=
  (List.range num_bytes).reverse.map (fun i => (value >>> (n * i)) &&& (2 ^ n - 1))

/-- `encoding.encode_n(value, num_bytes, n)`: range-checks Python `int`
inputs, converts `bytes` inputs with `int.from_bytes` (without any range
check), rejects anything else with `TypeError`, then packs. -/
def encode_n (value : EncodeValue) (num_bytes n : Nat) : Except PyErr (List Nat) :=
  match value with
  | .int i =>
      if i < 0 then .error .valueError
      else if (2 : Int) ^ (n * num_bytes) ≤ i then .error .valueError
      else .ok (encodeChunks i.toNat num_bytes n)
  | .bytes bs => .ok (encodeChunks (int_from_bytes bs) num_bytes n)
  | .other => .error .typeError

/-- `encoding.bit_array_to_int`: the big-endian value of a bit list.  The
source accumulates `value |= int(bit) << i` over the reversed list, which
is the same valuation as this most-significant-first fold. -/
def bit_array_to_int (bit_array : List Bool) : Nat :=
  bit_array.foldl (fun a b => 2 * a + (if b then 1 else 0)) 0

/-- The bits appended for one input byte of `encoding.decode_n`:
`for i in reversed(range(n)): bits.append(bool(input_byte & (1 << i)))`. -/
def byteBits (n input_byte : Nat) : List Bool :=
  (List.range n).reverse.map (fun i => input_byte.testBit i)

/-- The left-padding step of `encoding.decode_n`:
`while len(bits) % 8 != 0: bits.insert(0, False)`. -/
def padBits (bits : List Bool) : List Bool :=
  List.replicate ((8 - bits.length % 8) % 8) false ++ bits

/-- `utils.grouper(bits, 8)` on an exact multiple of 8 bits (the padded
bit list always is one). -/
def chunk8 : List Bool → List (List Bool)
  | [] => []
  | a :: rest => ((a :: rest).take 8) :: chunk8 ((a :: rest).drop 8)
  termination_by l => l.length
  decreasing_by simp; omega

/-- `encoding.decode_n(value, n)`: rejects any byte with a bit at or above
position `n` (`ValueError`), otherwise regroups the low `n` bits of every
byte, left-padded to a multiple of 8, into 8-bit bytes. -/
def decode_n (value : List Nat) (n : Nat) : Except PyErr (List Nat) :=
  if value.all (fun input_byte => input_byte >>> n == 0)
  then .ok ((chunk8 (padBits (value.flatMap (byteBits n)))).map bit_array_to_int)
  else .error .valueError

/-- Big-endian 8-bit bytes of `v`, `k` of them: `v.to_bytes(k, "big")`
(modulo `2^(8k)`).  This is what `decode_n` reconstructs. -/
def bytesBE (k v : Nat) : List Nat :=
  encodeChunks v k 8


/-! ### `k2000/messages.py`: constants and helpers -/

/-- `K2_HEADER = F0 07 00 78`. -/
def K2_HEADER : List Nat := [0xF0, 0x07, 0x00, 0x78]

/-- `K2_FOOTER = F7`. -/
def K2_FOOTER : List Nat := [0xF7]

/-- `MIN_PACKET_SIZE = len(K2_HEADER) + 1 + len(K2_FOOTER)`. -/
def MIN_PACKET_SIZE : Nat := K2_HEADER.length + 1 + K2_FOOTER.length

/-- `encode[7](v, k)` on an in-range `int` argument.  The source's
`encode_n` range check passes for every value admitted by `wfB` below, so
message bodies use the pure chunking step directly. -/
def enc7 (v k : Nat) : List Nat := encodeChunks v k 7

/-- `data[i]` on `bytes`: `IndexError` when out of range. -/
def getE (data : List Nat) (i : Nat) : Except PyErr Nat :=
  match data.get? i with
  | some x => .ok x
  | none => .error .indexError

/-- `data[-1]` on `bytes`: `IndexError` when empty. -/
def getLastE (data : List Nat) : Except PyErr Nat :=
  match data.getLast? with
  | some x => .ok x
  | none => .error .indexError

/-- `int.from_bytes(decode[7](bs), "big")`, the combination used by every
fixed-width field decoder in `messages.py`. -/
def decode7int (bs : List Nat) : Except PyErr Nat :=
  match decode_n bs 7 with
  | .ok l => .ok (int_from_bytes l)
  | .error e => .error e

/-- `data[-size:]` on `bytes`: Python returns the whole buffer when
`size = 0`, otherwise the last `size` bytes. -/
def takeLastPy (l : List Nat) (size : Nat) : List Nat :=
  if size = 0 then l else l.drop (l.length - size)

/-- `bytes(...).decode("ascii")`: fails (`UnicodeDecodeError`) on any byte
not below 128.  The decoded string is kept as its byte list. -/
def asciiDecode (l : List Nat) : Except PyErr (List Nat) :=
  if l.all (fun b => b < 128) then .ok l else .error .valueError

/-- Membership in `definitions.ObjectType` (the enum's value set). -/
def isObjectType (v : Nat) : Bool :=
  v == 132 || v == 133 || v == 113 || v == 112 || v == 135 ||
  v == 134 || v == 104 || v == 105 || v == 111 || v == 103

/-- `ObjectType(v)`: `ValueError` when `v` is not an enumerant value. -/
def objectTypeE (v : Nat) : Except PyErr Nat :=
  if isObjectType v then .ok v else .error .valueError

/-- Membership in `definitions.EncodingFormat` (`Nibblized = 0`,
`BitStream = 1`). -/
def isEncodingFormat (v : Nat) : Bool := v == 0 || v == 1

/-- `EncodingFormat(v)`. -/
def encodingFormatE (v : Nat) : Except PyErr Nat :=
  if isEncodingFormat v then .ok v else .error .valueError

/-- Membership in `definitions.WriteMode` (0 or 1). -/
def isWriteMode (v : Nat) : Bool := v == 0 || v == 1

/-- `WriteMode(v)`. -/
def writeModeE (v : Nat) : Except PyErr Nat :=
  if isWriteMode v then .ok v else .error .valueError

/-- Membership in `DataNotAcknowledged.ErrorCode` (1..5). -/
def isErrorCode (v : Nat) : Bool := decide (1 ≤ v) && decide (v ≤ 5)

/-- `DataNotAcknowledged.ErrorCode(v)`. -/
def errorCodeE (v : Nat) : Except PyErr Nat :=
  if isErrorCode v then .ok v else .error .valueError

/-- Membership in `definitions.ButtonEventType` (0x08, 0x09, 0x0A, 0x0D). -/
def isButtonEventType (v : Nat) : Bool :=
  v == 0x08 || v == 0x09 || v == 0x0A || v == 0x0D

/-- The value set of `definitions.Button` (aliases `SoftYes`/`SoftNo`
share 0x26/0x27 with `SoftE`/`SoftF`). -/
def buttonValues : List Nat :=
  [0x00, 0x01, 0x02, 0x03, 0x04, 0x05, 0x06, 0x07, 0x08, 0x09,
   0x0A, 0x0B, 0x0C, 0x0D, 0x16, 0x17, 0x1E, 0x14, 0x15, 0x1C,
   0x12, 0x13, 0x1A, 0x10, 0x11, 0x22, 0x23, 0x24, 0x25, 0x26,
   0x27, 0x28, 0x29, 0x2A, 0x20, 0x21, 0x40, 0x41, 0x42, 0x47,
   0x44, 0x43, 0x46, 0x45]

/-- Membership in `definitions.Button`. -/
def isButton (v : Nat) : Bool := buttonValues.contains v

/-- `messages.ButtonEvent`: a 3-byte front-panel event.  Enumerant fields
are stored by value (Python enum members compare by identity of the
member, which for a fixed enum is equality of values). -/
structure ButtonEvent where
  event_type : Nat
  button : Nat
  alpha_wheel_clicks : Int
  deriving DecidableEq, Repr

/-- `ButtonEvent.decode`: length check, enum conversions, then the attrs
validator `__validate_alpha_wheel_clicks` on `byte - 64`. -/
def ButtonEvent.decode (data : List Nat) : Except PyErr ButtonEvent :=
  if data.length ≠ 3 then .error .valueError
  else
    let e := data.getD 0 0
    let b := data.getD 1 0
    let a := data.getD 2 0
    if isButtonEventType e then
      if isButton b then
        if (a : Int) - 64 < -64 ∨ 63 < (a : Int) - 64 then .error .valueError
        else .ok ⟨e, b, (a : Int) - 64⟩
      else .error .valueError
    else .error .valueError

/-- `ButtonEvent.encode`:
`bytes([event_type.value, button.value, alpha_wheel_clicks + 64])`. -/
def ButtonEvent.encode (ev : ButtonEvent) : List Nat :=
  [ev.event_type, ev.button, (ev.alpha_wheel_clicks + 64).toNat]

/-- `utils.grouper(data, 3)` as used by `Panel._decode_body`; a trailing
incomplete group is padded by `zip_longest` with `None`, which makes the
subsequent `bytes(chunk)` call fail — modelled by keeping the short
group, which `ButtonEvent.decode` then rejects. -/
def chunk3 : List Nat → List (List Nat)
  | [] => []
  | a :: rest => ((a :: rest).take 3) :: chunk3 ((a :: rest).drop 3)
  termination_by l => l.length
  decreasing_by simp; omega

/-- Decode every 3-byte group of a `Panel` body, failing on the first bad
group (the list comprehension in `Panel._decode_body` evaluates in
order). -/
def decodeEventChunks : List (List Nat) → Except PyErr (List ButtonEvent)
  | [] => .ok []
  | c :: rest =>
      match ButtonEvent.decode c with
      | .error e => .error e
      | .ok ev =>
          match decodeEventChunks rest with
          | .error e => .error e
          | .ok evs => .ok (ev :: evs)

/-! ### The message catalog -/

/-- The tagged union of every `SysexMessage` subclass in
`k2000/messages.py`, with each variant's fields.  Enum-typed fields carry
the enum member's value; `str` fields carry their ASCII bytes. -/
inductive Msg
  | Dump (type idno offset size form : Nat)
  | Load (type idno offset form : Nat) (data : List Nat)
  | DataAcknowledged (type idno offset size : Nat)
  | DataNotAcknowledged (type idno offset size code : Nat)
  | Dir (type idno : Nat)
  | Info (type idno size : Nat) (in_ram : Bool) (name : List Nat)
  | New (type idno size : Nat) (create_ram_copy : Bool) (name : List Nat)
  | Del (type idno : Nat)
  | Change (type idno newid : Nat) (name : List Nat)
  | Write (type idno mode : Nat) (name : List Nat) (form : Nat) (data : List Nat)
  | Read (type idno form : Nat)
  | ReadBank (type bank form : Nat) (ram_only : Bool)
  | DirBank (type bank : Nat) (ram_only : Bool)
  | EndOfBank (type bank : Nat)
  | DelBank (type bank : Nat)
  | MoveBank (type bank newbank : Nat)
  | LoadMacro
  | MacroDone (error : Bool)
  | Panel (button_events : List ButtonEvent)
  | AllText
  | ParameterValue
  | ParameterName
  | GetGraphics
  | ScreenReply (data : List Nat)
  deriving DecidableEq, Repr

/-- The catalog variants, as a plain tag (used for `_TYPE_MAP` lookup,
`isinstance` checks and the `DecodeFailed` message's class name). -/
inductive MsgKind
  | Dump | Load | DataAcknowledged | DataNotAcknowledged | Dir | Info
  | New | Del | Change | Write | Read | ReadBank | DirBank | EndOfBank
  | DelBank | MoveBank | LoadMacro | MacroDone | Panel | AllText
  | ParameterValue | ParameterName | GetGraphics | ScreenReply
  deriving DecidableEq, Repr

/-- The class of a message (`type(msg)` up to the catalog). -/
def Msg.kind : Msg → MsgKind
  | .Dump .. => .Dump
  | .Load .. => .Load
  | .DataAcknowledged .. => .DataAcknowledged
  | .DataNotAcknowledged .. => .DataNotAcknowledged
  | .Dir .. => .Dir
  | .Info .. => .Info
  | .New .. => .New
  | .Del .. => .Del
  | .Change .. => .Change
  | .Write .. => .Write
  | .Read .. => .Read
  | .ReadBank .. => .ReadBank
  | .DirBank .. => .DirBank
  | .EndOfBank .. => .EndOfBank
  | .DelBank .. => .DelBank
  | .MoveBank .. => .MoveBank
  | .LoadMacro => .LoadMacro
  | .MacroDone .. => .MacroDone
  | .Panel .. => .Panel
  | .AllText => .AllText
  | .ParameterValue => .ParameterValue
  | .ParameterName => .ParameterName
  | .GetGraphics => .GetGraphics
  | .ScreenReply .. => .ScreenReply

/-- `_msg_type_int` of each variant. -/
def MsgKind.typeByte : MsgKind → Nat
  | .Dump => 0x00
  | .Load => 0x01
  | .DataAcknowledged => 0x02
  | .DataNotAcknowledged => 0x03
  | .Dir => 0x04
  | .Info => 0x05
  | .New => 0x06
  | .Del => 0x07
  | .Change => 0x08
  | .Write => 0x09
  | .Read => 0x0A
  | .ReadBank => 0x0B
  | .DirBank => 0x0C
  | .EndOfBank => 0x0D
  | .DelBank => 0x0E
  | .MoveBank => 0x0F
  | .LoadMacro => 0x10
  | .MacroDone => 0x11
  | .Panel => 0x14
  | .AllText => 0x15
  | .ParameterValue => 0x16
  | .ParameterName => 0x17
  | .GetGraphics => 0x18
  | .ScreenReply => 0x19

/-- `_TYPE_MAP`: the type-byte to class table built at import time. -/
def typeMap (t : Nat) : Option MsgKind :=
  match t with
  | 0x00 => some .Dump
  | 0x01 => some .Load
  | 0x02 => some .DataAcknowledged
  | 0x03 => some .DataNotAcknowledged
  | 0x04 => some .Dir
  | 0x05 => some .Info
  | 0x06 => some .New
  | 0x07 => some .Del
  | 0x08 => some .Change
  | 0x09 => some .Write
  | 0x0A => some .Read
  | 0x0B => some .ReadBank
  | 0x0C => some .DirBank
  | 0x0D => some .EndOfBank
  | 0x0E => some .DelBank
  | 0x0F => some .MoveBank
  | 0x10 => some .LoadMacro
  | 0x11 => some .MacroDone
  | 0x14 => some .Panel
  | 0x15 => some .AllText
  | 0x16 => some .ParameterValue
  | 0x17 => some .ParameterName
  | 0x18 => some .GetGraphics
  | 0x19 => some .ScreenReply
  | _ => none

/-- `_response_classes` of each variant (including the assignments made
after the class definitions: `Dump → [Load]`,
`Load → [DataAcknowledged, DataNotAcknowledged]`, `Dir → [Info]`). -/
def MsgKind.responseClasses : MsgKind → List MsgKind
  | .Dump => [.Load]
  | .Load => [.DataAcknowledged, .DataNotAcknowledged]
  | .Dir => [.Info]
  | .New => [.Info]
  | .Del => [.Info]
  | .Change => [.Info]
  | .Write => [.DataAcknowledged, .DataNotAcknowledged]
  | .Read => [.Write]
  | .ReadBank => [.Write]
  | .DirBank => [.Info]
  | .EndOfBank => [.Info]
  | .DelBank => [.Info]
  | .MoveBank => [.Info]
  | _ => []

/-- `sum(encoded_data) & 0b1111111`: the 7-bit checksum of the packed
data payload. -/
def checksum7 (l : List Nat) : Nat := l.sum &&& 0b1111111

/-- The packed data payload of `Load`/`Write`:
4-bit packing into `ceil(len·8/4)` bytes when `form` is `Nibblized` (0),
7-bit packing into `ceil(len·8/7)` bytes otherwise. -/
def packedData (form : Nat) (data : List Nat) : List Nat :=
  if form == 0 then encodeChunks (int_from_bytes data) ((data.length * 8 + 3) / 4) 4
  else encodeChunks (int_from_bytes data) ((data.length * 8 + 6) / 7) 7

/-- `_encode_body` of each variant, as in `messages.py`. -/
def Msg.encodeBody : Msg → List Nat
  | .Dump type idno offset size form =>
      enc7 type 2 ++ enc7 idno 2 ++ enc7 offset 3 ++ enc7 size 3 ++ enc7 form 1
  | .Load type idno offset form data =>
      enc7 type 2 ++ enc7 idno 2 ++ enc7 offset 3 ++ enc7 data.length 3 ++
      enc7 form 1 ++ packedData form data ++ enc7 (checksum7 (packedData form data)) 1
  | .DataAcknowledged type idno offset size =>
      enc7 type 2 ++ enc7 idno 2 ++ enc7 offset 3 ++ enc7 size 3
  | .DataNotAcknowledged type idno offset size code =>
      enc7 type 2 ++ enc7 idno 2 ++ enc7 offset 3 ++ enc7 size 3 ++ enc7 code 1
  | .Dir type idno => enc7 type 2 ++ enc7 idno 2
  | .Info type idno size in_ram name =>
      enc7 type 2 ++ enc7 idno 2 ++ enc7 size 3 ++
      enc7 (if in_ram then 1 else 0) 1 ++ name ++ [0]
  | .New type idno size create_ram_copy name =>
      enc7 type 2 ++ enc7 idno 2 ++ enc7 size 3 ++
      enc7 (if create_ram_copy then 1 else 0) 1 ++ name ++ [0]
  | .Del type idno => enc7 type 2 ++ enc7 idno 2
  | .Change type idno newid name =>
      enc7 type 2 ++ enc7 idno 2 ++ enc7 newid 2 ++ name ++ [0]
  | .Write type idno mode name form data =>
      enc7 type 2 ++ enc7 idno 2 ++ enc7 data.length 3 ++ enc7 mode 1 ++
      name ++ [0] ++ enc7 form 1 ++ packedData form data ++
      enc7 (checksum7 (packedData form data)) 1
  | .Read type idno form => enc7 type 2 ++ enc7 idno 2 ++ enc7 form 1
  | .ReadBank type bank form ram_only =>
      enc7 type 2 ++ enc7 bank 1 ++ enc7 form 1 ++
      enc7 (if ram_only then 1 else 0) 1
  | .DirBank type bank ram_only =>
      enc7 type 2 ++ enc7 bank 1 ++ enc7 (if ram_only then 1 else 0) 1
  | .EndOfBank type bank => enc7 type 2 ++ enc7 bank 1
  | .DelBank type bank => enc7 type 2 ++ enc7 bank 1
  | .MoveBank type bank newbank => enc7 type 2 ++ enc7 bank 1 ++ enc7 newbank 1
  | .LoadMacro => []
  | .MacroDone error => enc7 (if error then 1 else 0) 1
  | .Panel button_events => button_events.flatMap ButtonEvent.encode
  | .AllText => []
  | .ParameterValue => []
  | .ParameterName => []
  | .GetGraphics => []
  | .ScreenReply data => data

/-- `SysexMessage.encode`:
`K2_HEADER + bytes([_msg_type_int]) + _encode_body() + K2_FOOTER`. -/
def Msg.encode (m : Msg) : List Nat :=
  K2_HEADER ++ [m.kind.typeByte] ++ m.encodeBody ++ K2_FOOTER


/-! ### Body decoders (`_decode_body` of each variant) -/

/-- `Dump._decode_body`. -/
def decodeBodyDump (data : List Nat) : Except PyErr Msg :=
  match decode7int (data.take 2) with
  | .error e => .error e
  | .ok tv =>
  match objectTypeE tv with
  | .error e => .error e
  | .ok type =>
  match decode7int ((data.drop 2).take 2) with
  | .error e => .error e
  | .ok idno =>
  match decode7int ((data.drop 4).take 3) with
  | .error e => .error e
  | .ok offset =>
  match decode7int ((data.drop 7).take 3) with
  | .error e => .error e
  | .ok size =>
  match getE data 10 with
  | .error e => .error e
  | .ok fv =>
  match encodingFormatE fv with
  | .error e => .error e
  | .ok form => .ok (.Dump type idno offset size form)

/-- `Load._decode_body` (fields, checksum verification, then payload
unpacking and the `[-size:]` slice). -/
def decodeBodyLoad (data : List Nat) : Except PyErr Msg :=
  match decode7int (data.take 2) with
  | .error e => .error e
  | .ok tv =>
  match objectTypeE tv with
  | .error e => .error e
  | .ok type =>
  match decode7int ((data.drop 2).take 2) with
  | .error e => .error e
  | .ok idno =>
  match decode7int ((data.drop 4).take 3) with
  | .error e => .error e
  | .ok offset =>
  match decode7int ((data.drop 7).take 3) with
  | .error e => .error e
  | .ok size =>
  match getE data 10 with
  | .error e => .error e
  | .ok fv =>
  match encodingFormatE fv with
  | .error e => .error e
  | .ok form =>
  match getLastE data with
  | .error e => .error e
  | .ok encoded_checksum =>
  let region := (data.drop 11).dropLast
  let calculated_checksum := region.sum &&& 0b1111111
  if calculated_checksum ≠ encoded_checksum then
    .error (.checksumMismatch calculated_checksum encoded_checksum)
  else
    match decode_n region (if form == 0 then 4 else 7) with
    | .error e => .error e
    | .ok decoded => .ok (.Load type idno offset form (takeLastPy decoded size))

/-- `DataAcknowledged._decode_body`. -/
def decodeBodyDataAcknowledged (data : List Nat) : Except PyErr Msg :=
  match decode7int (data.take 2) with
  | .error e => .error e
  | .ok tv =>
  match objectTypeE tv with
  | .error e => .error e
  | .ok type =>
  match decode7int ((data.drop 2).take 2) with
  | .error e => .error e
  | .ok idno =>
  match decode7int ((data.drop 4).take 3) with
  | .error e => .error e
  | .ok offset =>
  match decode7int ((data.drop 7).take 3) with
  | .error e => .error e
  | .ok size => .ok (.DataAcknowledged type idno offset size)

/-- `DataNotAcknowledged._decode_body`. -/
def decodeBodyDataNotAcknowledged (data : List Nat) : Except PyErr Msg :=
  match decode7int (data.take 2) with
  | .error e => .error e
  | .ok tv =>
  match objectTypeE tv with
  | .error e => .error e
  | .ok type =>
  match decode7int ((data.drop 2).take 2) with
  | .error e => .error e
  | .ok idno =>
  match decode7int ((data.drop 4).take 3) with
  | .error e => .error e
  | .ok offset =>
  match decode7int ((data.drop 7).take 3) with
  | .error e => .error e
  | .ok size =>
  match getE data 10 with
  | .error e => .error e
  | .ok cv =>
  match errorCodeE cv with
  | .error e => .error e
  | .ok code => .ok (.DataNotAcknowledged type idno offset size code)

/-- `Dir._decode_body`. -/
def decodeBodyDir (data : List Nat) : Except PyErr Msg :=
  match decode7int (data.take 2) with
  | .error e => .error e
  | .ok tv =>
  match objectTypeE tv with
  | .error e => .error e
  | .ok type =>
  match decode7int ((data.drop 2).take 2) with
  | .error e => .error e
  | .ok idno => .ok (.Dir type idno)

/-- `Info._decode_body`. -/
def decodeBodyInfo (data : List Nat) : Except PyErr Msg :=
  match decode7int (data.take 2) with
  | .error e => .error e
  | .ok tv =>
  match objectTypeE tv with
  | .error e => .error e
  | .ok type =>
  match decode7int ((data.drop 2).take 2) with
  | .error e => .error e
  | .ok idno =>
  match decode7int ((data.drop 4).take 3) with
  | .error e => .error e
  | .ok size =>
  match getE data 7 with
  | .error e => .error e
  | .ok rv =>
  match asciiDecode ((data.drop 8).dropLast) with
  | .error e => .error e
  | .ok name => .ok (.Info type idno size (rv ≠ 0) name)

/-- `New._decode_body`. -/
def decodeBodyNew (data : List Nat) : Except PyErr Msg :=
  match decode7int (data.take 2) with
  | .error e => .error e
  | .ok tv =>
  match objectTypeE tv with
  | .error e => .error e
  | .ok type =>
  match decode7int ((data.drop 2).take 2) with
  | .error e => .error e
  | .ok idno =>
  match decode7int ((data.drop 4).take 3) with
  | .error e => .error e
  | .ok size =>
  match getE data 7 with
  | .error e => .error e
  | .ok rv =>
  match asciiDecode ((data.drop 8).dropLast) with
  | .error e => .error e
  | .ok name => .ok (.New type idno size (rv ≠ 0) name)

/-- `Del._decode_body`. -/
def decodeBodyDel (data : List Nat) : Except PyErr Msg :=
  match decode7int (data.take 2) with
  | .error e => .error e
  | .ok tv =>
  match objectTypeE tv with
  | .error e => .error e
  | .ok type =>
  match decode7int ((data.drop 2).take 2) with
  | .error e => .error e
  | .ok idno => .ok (.Del type idno)

/-- `Change._decode_body`. -/
def decodeBodyChange (data : List Nat) : Except PyErr Msg :=
  match decode7int (data.take 2) with
  | .error e => .error e
  | .ok tv =>
  match objectTypeE tv with
  | .error e => .error e
  | .ok type =>
  match decode7int ((data.drop 2).take 2) with
  | .error e => .error e
  | .ok idno =>
  match decode7int ((data.drop 4).take 2) with
  | .error e => .error e
  | .ok newid =>
  match asciiDecode ((data.drop 6).dropLast) with
  | .error e => .error e
  | .ok name => .ok (.Change type idno newid name)

/-- `bytes.index(b"\x00")`: the index of the first zero byte, `None`
(→ `ValueError`) when there is none. -/
def indexOfNul : List Nat → Option Nat
  | [] => none
  | b :: rest => if b == 0 then some 0 else (indexOfNul rest).map (· + 1)

/-- `Write._decode_body` (NUL search for the name, checksum verification,
payload unpacking). -/
def decodeBodyWrite (data : List Nat) : Except PyErr Msg :=
  match decode7int (data.take 2) with
  | .error e => .error e
  | .ok tv =>
  match objectTypeE tv with
  | .error e => .error e
  | .ok type =>
  match decode7int ((data.drop 2).take 2) with
  | .error e => .error e
  | .ok idno =>
  match decode7int ((data.drop 4).take 3) with
  | .error e => .error e
  | .ok size =>
  match getE data 7 with
  | .error e => .error e
  | .ok mv =>
  match writeModeE mv with
  | .error e => .error e
  | .ok mode =>
  match indexOfNul (data.drop 8) with
  | none => .error .valueError
  | some i =>
  let end_of_name := 8 + i
  match asciiDecode ((data.drop 8).take i) with
  | .error e => .error e
  | .ok name =>
  match getE data (end_of_name + 1) with
  | .error e => .error e
  | .ok fv =>
  match encodingFormatE fv with
  | .error e => .error e
  | .ok form =>
  match getLastE data with
  | .error e => .error e
  | .ok encoded_checksum =>
  let region := (data.drop (end_of_name + 2)).dropLast
  let calculated_checksum := region.sum &&& 0b1111111
  if calculated_checksum ≠ encoded_checksum then
    .error (.checksumMismatch calculated_checksum encoded_checksum)
  else
    match decode_n region (if form == 0 then 4 else 7) with
    | .error e => .error e
    | .ok decoded => .ok (.Write type idno mode name form (takeLastPy decoded size))

/-- `Read._decode_body`. -/
def decodeBodyRead (data : List Nat) : Except PyErr Msg :=
  match decode7int (data.take 2) with
  | .error e => .error e
  | .ok tv =>
  match objectTypeE tv with
  | .error e => .error e
  | .ok type =>
  match decode7int ((data.drop 2).take 2) with
  | .error e => .error e
  | .ok idno =>
  match getE data 4 with
  | .error e => .error e
  | .ok fv =>
  match encodingFormatE fv with
  | .error e => .error e
  | .ok form => .ok (.Read type idno form)

/-- `ReadBank._decode_body` (`bank = data[2]` read raw). -/
def decodeBodyReadBank (data : List Nat) : Except PyErr Msg :=
  match decode7int (data.take 2) with
  | .error e => .error e
  | .ok tv =>
  match objectTypeE tv with
  | .error e => .error e
  | .ok type =>
  match getE data 2 with
  | .error e => .error e
  | .ok bank =>
  match getE data 3 with
  | .error e => .error e
  | .ok fv =>
  match encodingFormatE fv with
  | .error e => .error e
  | .ok form =>
  match getE data 4 with
  | .error e => .error e
  | .ok rv => .ok (.ReadBank type bank form (rv ≠ 0))

/-- `DirBank._decode_body`. -/
def decodeBodyDirBank (data : List Nat) : Except PyErr Msg :=
  match decode7int (data.take 2) with
  | .error e => .error e
  | .ok tv =>
  match objectTypeE tv with
  | .error e => .error e
  | .ok type =>
  match getE data 2 with
  | .error e => .error e
  | .ok bank =>
  match getE data 3 with
  | .error e => .error e
  | .ok rv => .ok (.DirBank type bank (rv ≠ 0))

/-- `EndOfBank._decode_body`. -/
def decodeBodyEndOfBank (data : List Nat) : Except PyErr Msg :=
  match decode7int (data.take 2) with
  | .error e => .error e
  | .ok tv =>
  match objectTypeE tv with
  | .error e => .error e
  | .ok type =>
  match getE data 2 with
  | .error e => .error e
  | .ok bank => .ok (.EndOfBank type bank)

/-- `DelBank._decode_body`. -/
def decodeBodyDelBank (data : List Nat) : Except PyErr Msg :=
  match decode7int (data.take 2) with
  | .error e => .error e
  | .ok tv =>
  match objectTypeE tv with
  | .error e => .error e
  | .ok type =>
  match getE data 2 with
  | .error e => .error e
  | .ok bank => .ok (.DelBank type bank)

/-- `MoveBank._decode_body`. -/
def decodeBodyMoveBank (data : List Nat) : Except PyErr Msg :=
  match decode7int (data.take 2) with
  | .error e => .error e
  | .ok tv =>
  match objectTypeE tv with
  | .error e => .error e
  | .ok type =>
  match getE data 2 with
  | .error e => .error e
  | .ok bank =>
  match getE data 3 with
  | .error e => .error e
  | .ok newbank => .ok (.MoveBank type bank newbank)

/-- `MacroDone._decode_body` (`error = bool(data[0])`). -/
def decodeBodyMacroDone (data : List Nat) : Except PyErr Msg :=
  match getE data 0 with
  | .error e => .error e
  | .ok ev => .ok (.MacroDone (ev ≠ 0))

/-- `Panel._decode_body`. -/
def decodeBodyPanel (data : List Nat) : Except PyErr Msg :=
  match decodeEventChunks (chunk3 data) with
  | .error e => .error e
  | .ok evs => .ok (.Panel evs)

/-- `ScreenReply._decode_body`. -/
def decodeBodyScreenReply (data : List Nat) : Except PyErr Msg :=
  .ok (.ScreenReply data)

/-- `EmptyBody._decode_body`: `assert not data`, then the niladic
constructor. -/
def decodeBodyEmpty (m : Msg) (data : List Nat) : Except PyErr Msg :=
  if data ≠ [] then .error .assertError else .ok m

/-- Dispatch to the `_decode_body` classmethod of a catalog entry. -/
def decodeBodyOf : MsgKind → List Nat → Except PyErr Msg
  | .Dump => decodeBodyDump
  | .Load => decodeBodyLoad
  | .DataAcknowledged => decodeBodyDataAcknowledged
  | .DataNotAcknowledged => decodeBodyDataNotAcknowledged
  | .Dir => decodeBodyDir
  | .Info => decodeBodyInfo
  | .New => decodeBodyNew
  | .Del => decodeBodyDel
  | .Change => decodeBodyChange
  | .Write => decodeBodyWrite
  | .Read => decodeBodyRead
  | .ReadBank => decodeBodyReadBank
  | .DirBank => decodeBodyDirBank
  | .EndOfBank => decodeBodyEndOfBank
  | .DelBank => decodeBodyDelBank
  | .MoveBank => decodeBodyMoveBank
  | .LoadMacro => decodeBodyEmpty .LoadMacro
  | .MacroDone => decodeBodyMacroDone
  | .Panel => decodeBodyPanel
  | .AllText => decodeBodyEmpty .AllText
  | .ParameterValue => decodeBodyEmpty .ParameterValue
  | .ParameterName => decodeBodyEmpty .ParameterName
  | .GetGraphics => decodeBodyEmpty .GetGraphics
  | .ScreenReply => decodeBodyScreenReply

/-! ### The frame codec (`SysexMessage` classmethods) -/

/-- The errors `SysexMessage.decode` can raise.  `decodeFailed` is the
wrapping `ValueError` ("Failed to decode N-byte packet as 'Klass'"),
chaining the body decoder's exception as its cause. -/
inductive DecodeError
  | tooSmall (got : Nat)
  | invalidHeader
  | invalidFooter
  | unsupportedType (t : Nat)
  | decodeFailed (length : Nat) (variant : MsgKind) (cause : PyErr)
  deriving DecidableEq, Repr

/-- `SysexMessage.has_valid_k2_headers`. -/
def has_valid_k2_headers (data : List Nat) : Bool :=
  decide (MIN_PACKET_SIZE ≤ data.length) &&
  data.take K2_HEADER.length == K2_HEADER &&
  data.getLastD 0 == 0xF7

/-- `SysexMessage.decode`: size check, header/footer checks, `_TYPE_MAP`
lookup, then the variant's `_decode_body` on
`data[len(K2_HEADER) + 1 : -len(K2_FOOTER)]` with any exception wrapped
into the `DecodeFailed` `ValueError`. -/
def Msg.decode (data : List Nat) : Except DecodeError Msg :=
  if data.length < MIN_PACKET_SIZE then .error (.tooSmall data.length)
  else if data.take K2_HEADER.length ≠ K2_HEADER then .error .invalidHeader
  else if data.getLastD 0 ≠ 0xF7 then .error .invalidFooter
  else
    let message_type := data.getD K2_HEADER.length 0
    match typeMap message_type with
    | none => .error (.unsupportedType message_type)
    | some klass =>
        let sub_data := (data.drop (K2_HEADER.length + 1)).dropLast
        match decodeBodyOf klass sub_data with
        | .ok m => .ok m
        | .error e => .error (.decodeFailed data.length klass e)

/-! ### Declared field domains (`wfB`) -/

/-- Every entry is a byte (the Python `bytes` type guarantees this). -/
def bytesOk (data : List Nat) : Bool := data.all (fun b => decide (b < 256))

/-- NUL-free ASCII: what a `str` that survives `encode("ascii")` and
contains no embedded terminator may hold. -/
def nameOk (name : List Nat) : Bool :=
  name.all (fun b => decide (0 < b) && decide (b < 128))

/-- One 3-byte panel event within its declared domain. -/
def buttonEventOk (ev : ButtonEvent) : Bool :=
  isButtonEventType ev.event_type && isButton ev.button &&
  decide (-64 ≤ ev.alpha_wheel_clicks) && decide (ev.alpha_wheel_clicks ≤ 63)

/-- The declared domain of each variant's fields: object-type enumerants,
14-bit IDs, 21-bit offsets/sizes (3 packed 7-bit bytes), 7-bit banks,
enum values for form/mode/code, NUL-free ASCII names, byte buffers whose
length fits the 3-byte size field. -/
def Msg.wfB : Msg → Bool
  | .Dump type idno offset size form =>
      isObjectType type && decide (idno < 2 ^ 14) && decide (offset < 2 ^ 21) &&
      decide (size < 2 ^ 21) && isEncodingFormat form
  | .Load type idno offset form data =>
      isObjectType type && decide (idno < 2 ^ 14) && decide (offset < 2 ^ 21) &&
      isEncodingFormat form && bytesOk data && decide (data.length < 2 ^ 21)
  | .DataAcknowledged type idno offset size =>
      isObjectType type && decide (idno < 2 ^ 14) && decide (offset < 2 ^ 21) &&
      decide (size < 2 ^ 21)
  | .DataNotAcknowledged type idno offset size code =>
      isObjectType type && decide (idno < 2 ^ 14) && decide (offset < 2 ^ 21) &&
      decide (size < 2 ^ 21) && isErrorCode code
  | .Dir type idno => isObjectType type && decide (idno < 2 ^ 14)
  | .Info type idno size _ name =>
      isObjectType type && decide (idno < 2 ^ 14) && decide (size < 2 ^ 21) &&
      nameOk name
  | .New type idno size _ name =>
      isObjectType type && decide (idno < 2 ^ 14) && decide (size < 2 ^ 21) &&
      nameOk name
  | .Del type idno => isObjectType type && decide (idno < 2 ^ 14)
  | .Change type idno newid name =>
      isObjectType type && decide (idno < 2 ^ 14) && decide (newid < 2 ^ 14) &&
      nameOk name
  | .Write type idno mode name form data =>
      isObjectType type && decide (idno < 2 ^ 14) && isWriteMode mode &&
      nameOk name && isEncodingFormat form && bytesOk data &&
      decide (data.length < 2 ^ 21)
  | .Read type idno form =>
      isObjectType type && decide (idno < 2 ^ 14) && isEncodingFormat form
  | .ReadBank type bank form _ =>
      isObjectType type && decide (bank < 2 ^ 7) && isEncodingFormat form
  | .DirBank type bank _ => isObjectType type && decide (bank < 2 ^ 7)
  | .EndOfBank type bank => isObjectType type && decide (bank < 2 ^ 7)
  | .DelBank type bank => isObjectType type && decide (bank < 2 ^ 7)
  | .MoveBank type bank newbank =>
      isObjectType type && decide (bank < 2 ^ 7) && decide (newbank < 2 ^ 7)
  | .LoadMacro => true
  | .MacroDone _ => true
  | .Panel button_events => button_events.all buttonEventOk
  | .AllText => true
  | .ParameterValue => true
  | .ParameterName => true
  | .GetGraphics => true
  | .ScreenReply data => bytesOk data


/-! ### `k2000/client.py`: the transaction loop -/

/-- `max(1, int(timeout / 0.01))` — the iteration budget of the polling
loop in `K2BaseClient._send_and_receive`.  Python `int()` truncates
toward zero, which for a nonnegative timeout is the floor. -/
def maxIterations (timeout : ℚ) : Nat :=
  max 1 (Int.toNat ⌊timeout / (1 / 100)⌋)

/-- `tuple(message._response_classes or [SysexMessage])` followed by
`isinstance(decoded, response_classes)`: an empty class list falls back
to `[SysexMessage]`, which every decoded message is an instance of. -/
def accepts (req : MsgKind) (m : Msg) : Bool :=
  match req.responseClasses with
  | [] => true
  | ks => ks.contains m.kind

/-- The outcome of `_send_and_receive`: a returned message, a re-raised
held decode error, or the `TimeoutError` naming the timeout. -/
inductive RunResult
  | ok (m : Msg)
  | raised (e : DecodeError)
  | timedOut (timeout : ℚ)
  deriving DecidableEq, Repr

/-- The polling loop of `K2BaseClient._send_and_receive`: `fuel`
iterations remain, `exc` is the held decode error, `inbound` the frames
the transport will yield (one `get_message()` result per iteration;
an exhausted queue keeps yielding `none`).  Returns the outcome and the
number of iterations executed. -/
def pollLoop (acc : Msg → Bool) (timeout : ℚ) :
    Option DecodeError → List (Option (List Nat)) → Nat → RunResult × Nat
  | exc, _, 0 =>
      (match exc with
       | some e => .raised e
       | none => .timedOut timeout, 0)
  | exc, inbound, fuel + 1 =>
      match inbound.headD none with
      | none =>
          let r := pollLoop acc timeout exc inbound.tail fuel
          (r.1, r.2 + 1)
      | some response_data =>
          if has_valid_k2_headers response_data then
            match Msg.decode response_data with
            | .ok decoded =>
                if acc decoded then (.ok decoded, 1)
                else
                  let r := pollLoop acc timeout exc inbound.tail fuel
                  (r.1, r.2 + 1)
            | .error e =>
                let r := pollLoop acc timeout (some e) inbound.tail fuel
                (r.1, r.2 + 1)
          else
            let r := pollLoop acc timeout exc inbound.tail fuel
            (r.1, r.2 + 1)

/-- `K2BaseClient._send_and_receive(message, timeout)`: encode and send
`message` (fire and forget), then poll. -/
def send_and_receive (message : Msg) (inbound : List (Option (List Nat)))
    (timeout : ℚ) : RunResult × Nat :=
  pollLoop (accepts message.kind) timeout none inbound (maxIterations timeout)

/-- What one polled item contributes to the held exception: a decode
error when it passes the frame-marker pre-filter but fails full decode. -/
def pollItemErr (o : Option (List Nat)) : Option DecodeError :=
  match o with
  | none => none
  | some d =>
      if has_valid_k2_headers d then
        match Msg.decode d with
        | .error e => some e
        | .ok _ => none
      else none

/-- The decoded message of one polled item, when it passes the pre-filter
and decodes. -/
def pollItemMsg (o : Option (List Nat)) : Option Msg :=
  match o with
  | none => none
  | some d =>
      if has_valid_k2_headers d then
        match Msg.decode d with
        | .ok m => some m
        | .error _ => none
      else none

/-- Whether one polled item would be returned by the loop: it decodes and
its class is accepted. -/
def pollItemMatches (acc : Msg → Bool) (o : Option (List Nat)) : Bool :=
  match pollItemMsg o with
  | some m => acc m
  | none => false

/-- The sequence of `get_message()` results over `k` iterations: the
buffered frames in arrival order, then `none` once the queue is empty. -/
def polledItems (inbound : List (Option (List Nat))) (k : Nat) :
    List (Option (List Nat)) :=
  inbound.take k ++ List.replicate (k - inbound.length) none

/-! ### `k2000/client.py`: the indexed object proxy -/

/-- A key passed to `K2ObjectProxy.__getitem__`/`__setitem__`: a Python
`int` or anything else. -/
inductive PyKey
  | int (i : Int)
  | other
  deriving DecidableEq, Repr

/-- The key-validation prefix shared by `__getitem__` and `__setitem__`:
`isinstance(key, int)` else `TypeError`; then
`if key > 1000 or key < 1: raise ValueError` (the message says
"between 1 and 999, inclusive"). -/
def proxyKeyCheck (key : PyKey) : Except PyErr Int :=
  match key with
  | .other => .error .typeError
  | .int i => if 1000 < i ∨ i < 1 then .error .valueError else .ok i

/-- The first wire request `__getitem__` issues once validation passes:
`self.client.dir(self.type, key)`, a `Dir` message.  `.error` means an
exception was raised before any wire traffic. -/
def getitemFirstRequest (type : Nat) (key : PyKey) : Except PyErr Msg :=
  match proxyKeyCheck key with
  | .error e => .error e
  | .ok i => .ok (.Dir type i.toNat)

/-- The wire request `__setitem__` issues once key validation passes (the
value-shape check and the `Write` follow): modelled up to the key check,
mirroring `__getitem__`. -/
def setitemKeyCheck (key : PyKey) : Option PyErr :=
  match proxyKeyCheck key with
  | .error e => some e
  | .ok _ => none

/-! ### `ScreenReply` construction helpers -/

/-- `str.ljust(320)`: pad on the right with spaces (0x20) to length 320;
a string already at least 320 long is returned unchanged. -/
def ljust320 (s : List Nat) : List Nat :=
  if s.length < 320 then s ++ List.replicate (320 - s.length) 0x20 else s

/-- `ScreenReply.from_screen_contents`:
`cls(string.ljust(320).encode("ascii") + b"\x00")` — the stored payload
bytes. -/
def from_screen_contents (s : List Nat) : List Nat :=
  ljust320 s ++ [0]


/-- Replace the checksum byte — the last byte before the footer — of an
encoded frame by `c`, leaving the footer in place (the tampering used to
state the checksum claim). -/
def replaceChecksum (frame : List Nat) (c : Nat) : List Nat :=
  frame.dropLast.dropLast ++ [c, 0xF7]

/-- The checksum byte a `Load`/`Write` message is encoded with:
`sum(encoded_data) & 0b1111111` over the packed data payload. -/
def msgChecksum : Msg → Nat
  | .Load _ _ _ form data => checksum7 (packedData form data)
  | .Write _ _ _ _ form data => checksum7 (packedData form data)
  | _ => 0

/-! ### Arithmetic facts about the packer -/

theorem encodeChunks_length (v k n : Nat) : (encodeChunks v k n).length = k := by
  simp [encodeChunks]

theorem encodeChunks_succ (v k n : Nat) :
    encodeChunks v (k + 1) n = ((v >>> (n * k)) &&& (2 ^ n - 1)) :: encodeChunks v k n := by
  unfold encodeChunks
  rw [show (k + 1) = k.succ from rfl, List.range_succ]
  simp

theorem encodeChunks_entry (v k n : Nat) :
    encodeChunks v k n = (List.range k).reverse.map (fun i => v / 2 ^ (n * i) % 2 ^ n) := by
  unfold encodeChunks
  refine List.map_congr_left (fun i _ => ?_)
  rw [Nat.shiftRight_eq_div_pow, Nat.and_pow_two_sub_one_eq_mod]

theorem encodeChunks_zero (v n : Nat) : encodeChunks v 0 n = [] := rfl

theorem encodeChunks_one (v n : Nat) : encodeChunks v 1 n = [v % 2 ^ n] := by
  rw [encodeChunks_entry, show List.range 1 = [0] from rfl]
  simp

theorem encodeChunks_lt (v k n : Nat) : ∀ c ∈ encodeChunks v k n, c < 2 ^ n := by
  rw [encodeChunks_entry]
  intro c hc
  simp only [List.mem_map, List.mem_reverse, List.mem_range] at hc
  obtain ⟨i, _, rfl⟩ := hc
  exact Nat.mod_lt _ (Nat.pos_pow_of_pos n (by omega))

/-- Generalised fold: prepending a digit multiplies by the base power. -/
theorem chunksVal_foldl_init (n : Nat) (l : List Nat) (a : Nat) :
    l.foldl (fun a c => a * 2 ^ n + c) a = a * 2 ^ (n * l.length) + chunksVal n l := by
  induction l generalizing a with
  | nil => simp [chunksVal]
  | cons c rest ih =>
      simp only [List.foldl_cons, chunksVal, List.length_cons]
      rw [ih, ih (0 * 2 ^ n + c), Nat.mul_add, pow_add]
      ring

theorem chunksVal_cons (n c : Nat) (l : List Nat) :
    chunksVal n (c :: l) = c * 2 ^ (n * l.length) + chunksVal n l := by
  unfold chunksVal
  rw [List.foldl_cons, chunksVal_foldl_init]
  simp [chunksVal]

theorem chunksVal_concat (n c : Nat) (l : List Nat) :
    chunksVal n (l ++ [c]) = chunksVal n l * 2 ^ n + c := by
  unfold chunksVal
  rw [List.foldl_concat]

theorem chunksVal_lt (n : Nat) (l : List Nat) (h : ∀ c ∈ l, c < 2 ^ n) :
    chunksVal n l < 2 ^ (n * l.length) := by
  induction l with
  | nil => simp [chunksVal]
  | cons c rest ih =>
      rw [chunksVal_cons]
      have hc : c < 2 ^ n := h c (by simp)
      have hr := ih (fun x hx => h x (by simp [hx]))
      calc c * 2 ^ (n * rest.length) + chunksVal n rest
          < c * 2 ^ (n * rest.length) + 2 ^ (n * rest.length) := by omega
        _ = (c + 1) * 2 ^ (n * rest.length) := by ring
        _ ≤ 2 ^ n * 2 ^ (n * rest.length) := by
            exact Nat.mul_le_mul_right _ (by omega)
        _ = 2 ^ (n * (rest.length + 1)) := by rw [← pow_add]; ring_nf

theorem chunksVal_encodeChunks (v k n : Nat) :
    chunksVal n (encodeChunks v k n) = v % 2 ^ (n * k) := by
  induction k with
  | zero => simp [chunksVal, encodeChunks, Nat.mod_one]
  | succ k ih =>
      rw [encodeChunks_succ, chunksVal_cons, ih, encodeChunks_length,
        Nat.shiftRight_eq_div_pow, Nat.and_pow_two_sub_one_eq_mod]
      have : (2 : Nat) ^ (n * (k + 1)) = 2 ^ (n * k) * 2 ^ n := by
        rw [← pow_add]; ring_nf
      rw [this, Nat.mod_mul]
      ring

/-- Big-endian `w`-bit expansion of `v` (most significant bit first). -/
def bitsOfNat : Nat → Nat → List Bool
  | 0, _ => []
  | w + 1, v => bitsOfNat w (v / 2) ++ [decide (v % 2 = 1)]

theorem bitsOfNat_length (w v : Nat) : (bitsOfNat w v).length = w := by
  induction w generalizing v with
  | zero => rfl
  | succ w ih => simp [bitsOfNat, ih]

theorem bitsOfNat_mod (w v : Nat) : bitsOfNat w (v % 2 ^ w) = bitsOfNat w v := by
  induction w generalizing v with
  | zero => rfl
  | succ w ih =>
      unfold bitsOfNat
      have h1 : v % 2 ^ (w + 1) / 2 = v / 2 % 2 ^ w := by
        rw [pow_succ, mul_comm, Nat.mod_mul_right_div_self]
      have h2 : v % 2 ^ (w + 1) % 2 = v % 2 := by
        exact Nat.mod_mod_of_dvd v (dvd_pow_self 2 (by omega))
      rw [h1, h2, ih]

theorem bitsOfNat_succ (w v : Nat) :
    bitsOfNat (w + 1) v = bitsOfNat w (v / 2) ++ [decide (v % 2 = 1)] := rfl

theorem bitsOfNat_append (a b v : Nat) :
    bitsOfNat (a + b) v = bitsOfNat a (v / 2 ^ b) ++ bitsOfNat b v := by
  induction b generalizing v with
  | zero => simp [bitsOfNat]
  | succ b ih =>
      have h1 : a + (b + 1) = (a + b) + 1 := by omega
      rw [h1, bitsOfNat_succ, ih (v / 2), bitsOfNat_succ]
      have h2 : v / 2 / 2 ^ b = v / 2 ^ (b + 1) := by
        rw [Nat.div_div_eq_div_mul, pow_succ, Nat.mul_comm 2 (2 ^ b)]
      rw [h2, List.append_assoc]

theorem bit_array_to_int_concat (l : List Bool) (b : Bool) :
    bit_array_to_int (l ++ [b]) = 2 * bit_array_to_int l + (if b then 1 else 0) := by
  unfold bit_array_to_int
  rw [List.foldl_concat]

theorem bit_array_to_int_bitsOfNat (w v : Nat) :
    bit_array_to_int (bitsOfNat w v) = v % 2 ^ w := by
  induction w generalizing v with
  | zero => simp [bitsOfNat, bit_array_to_int, Nat.mod_one]
  | succ w ih =>
      unfold bitsOfNat
      rw [bit_array_to_int_concat, ih]
      have h2 : v % 2 ^ (w + 1) = 2 * (v / 2 % 2 ^ w) + v % 2 := by
        rw [pow_succ, mul_comm (2 ^ w) 2, Nat.mod_mul]
        ring
      rw [h2]
      rcases Nat.mod_two_eq_zero_or_one v with h | h <;> simp [h]

theorem bitsOfNat_zero_val (w : Nat) : bitsOfNat w 0 = List.replicate w false := by
  induction w with
  | zero => rfl
  | succ w ih => rw [bitsOfNat, Nat.zero_div, ih, List.replicate_succ' w false]; simp

theorem byteBits_eq_bitsOfNat (n b : Nat) : byteBits n b = bitsOfNat n b := by
  induction n with
  | zero => rfl
  | succ n ih =>
      unfold byteBits
      rw [List.range_succ]
      simp only [List.reverse_append, List.reverse_cons, List.reverse_nil, List.nil_append,
        List.singleton_append, List.map_cons]
      have hrest : (List.range n).reverse.map (fun i => b.testBit i) = bitsOfNat n b := ih
      rw [hrest]
      have : n + 1 = 1 + n := by omega
      rw [this, bitsOfNat_append 1 n b]
      have : bitsOfNat 1 (b / 2 ^ n) = [decide (b / 2 ^ n % 2 = 1)] := by
        unfold bitsOfNat; simp [bitsOfNat]
      rw [this, Nat.testBit_to_div_mod]
      rfl

theorem flatMap_byteBits (n : Nat) (bs : List Nat) (h : ∀ c ∈ bs, c < 2 ^ n) :
    bs.flatMap (byteBits n) = bitsOfNat (n * bs.length) (chunksVal n bs) := by
  induction bs with
  | nil => simp [bitsOfNat, chunksVal]
  | cons c rest ih =>
      have hrest := ih (fun x hx => h x (by simp [hx]))
      have hc : c < 2 ^ n := h c (by simp)
      simp only [List.flatMap_cons, List.length_cons, chunksVal_cons]
      rw [hrest, byteBits_eq_bitsOfNat]
      have hlen : n * (rest.length + 1) = n + n * rest.length := by ring
      rw [hlen, bitsOfNat_append n (n * rest.length)]
      have hCV := chunksVal_lt n rest (fun x hx => h x (by simp [hx]))
      have hdiv : (c * 2 ^ (n * rest.length) + chunksVal n rest) / 2 ^ (n * rest.length) = c := by
        rw [Nat.mul_comm c (2 ^ (n * rest.length)),
          Nat.mul_add_div (Nat.pos_pow_of_pos _ (by omega)),
          Nat.div_eq_of_lt hCV]
        omega
      rw [hdiv]
      congr 1
      rw [← bitsOfNat_mod (n * rest.length) (c * 2 ^ (n * rest.length) + chunksVal n rest)]
      congr 1
      rw [Nat.mul_comm c (2 ^ (n * rest.length)), Nat.mul_add_mod, Nat.mod_eq_of_lt hCV]

theorem chunk8_ne_nil (l : List Bool) (h : l ≠ []) :
    chunk8 l = l.take 8 :: chunk8 (l.drop 8) := by
  match l with
  | [] => exact absurd rfl h
  | a :: rest => rw [chunk8]

theorem chunk8_bitsOfNat (m v : Nat) :
    (chunk8 (bitsOfNat (8 * m) v)).map bit_array_to_int = bytesBE m v := by
  induction m generalizing v with
  | zero => simp [bitsOfNat, chunk8, bytesBE, encodeChunks]
  | succ m ih =>
      have hsplit : 8 * (m + 1) = 8 + 8 * m := by ring
      rw [hsplit, bitsOfNat_append 8 (8 * m) v]
      have hlen8 : (bitsOfNat 8 (v / 2 ^ (8 * m))).length = 8 := bitsOfNat_length _ _
      have hz : bitsOfNat 8 (v / 2 ^ (8 * m)) ++ bitsOfNat (8 * m) v ≠ [] := by
        intro hcontra
        have := congrArg List.length hcontra
        simp [hlen8, bitsOfNat_length] at this
      rw [chunk8_ne_nil _ hz, List.take_left' hlen8, List.drop_left' hlen8]
      simp only [List.map_cons]
      rw [ih, bit_array_to_int_bitsOfNat]
      unfold bytesBE
      rw [encodeChunks_succ]
      rw [Nat.shiftRight_eq_div_pow, Nat.and_pow_two_sub_one_eq_mod]

/-- Core characterisation of the packer round trip: decoding the packed
chunks of `v` yields the big-endian bytes of `v % 2^(n·k)`, with
`⌈n·k / 8⌉` of them. -/
theorem decode_n_encodeChunks (v k n : Nat) :
    decode_n (encodeChunks v k n) n = .ok (bytesBE ((n * k + 7) / 8) (v % 2 ^ (n * k))) := by
  unfold decode_n
  have hall : (encodeChunks v k n).all (fun input_byte => input_byte >>> n == 0) = true := by
    rw [List.all_eq_true]
    intro c hc
    have := encodeChunks_lt v k n c hc
    simp only [beq_iff_eq, Nat.shiftRight_eq_div_pow]
    exact Nat.div_eq_of_lt this
  rw [hall]
  simp only [if_true]
  rw [flatMap_byteBits n _ (encodeChunks_lt v k n), chunksVal_encodeChunks,
    encodeChunks_length]
  congr 1
  have hlen : (bitsOfNat (n * k) (v % 2 ^ (n * k))).length = n * k := bitsOfNat_length _ _
  unfold padBits
  rw [hlen]
  have hpad : (8 - n * k % 8) % 8 + n * k = 8 * ((n * k + 7) / 8) := by omega
  have hrepl : List.replicate ((8 - n * k % 8) % 8) false ++ bitsOfNat (n * k) (v % 2 ^ (n * k))
      = bitsOfNat (8 * ((n * k + 7) / 8)) (v % 2 ^ (n * k)) := by
    rw [← hpad, bitsOfNat_append ((8 - n * k % 8) % 8) (n * k)]
    congr 1
    rw [Nat.div_eq_of_lt (Nat.mod_lt _ (Nat.pos_pow_of_pos _ (by omega))),
      bitsOfNat_zero_val]
  rw [hrepl, chunk8_bitsOfNat]

/-! ### Claim C8: the literal `Dir(Program, 123)` encoding -/

/-- C8: `Dir(type=Program(132), idno=123)` encodes to exactly the ten
bytes `F0 07 00 78 04 01 04 00 7B F7` — the 4-byte header, type byte
0x04, type 132 packed as two 7-bit bytes `01 04`, idno 123 packed as
`00 7B`, and the footer. -/
theorem C8_dir_literal_encoding :
    Msg.encode (.Dir 132 123) =
      [0xF0, 0x07, 0x00, 0x78, 0x04, 0x01, 0x04, 0x00, 0x7B, 0xF7] := by
  decide

/-! ### Claim C3: the packer's argument handling -/

/-- C3 (counterexample): a byte-buffer input whose converted value is
`≥ 2^(n·num_bytes)` is NOT rejected — `encode_n(b"\xff", 1, 7)` returns
`b"\x7f"` even though 255 ≥ 2^7, silently truncating. -/
theorem C3_counterexample :
    encode_n (.bytes [255]) 1 7 = .ok [127] ∧ (2 : Nat) ^ (7 * 1) ≤ 255 := by
  exact ⟨by decide, by decide⟩

/-- C3 (amended): `encode_n(value, num_bytes, n)` range-checks only
Python `int` inputs (negative or `≥ 2^(n·num_bytes)` fails with a
`ValueError`); a byte buffer is converted big-endian and packed with no
range check, modulo `2^(n·num_bytes)`; any other argument fails with
`TypeError`; a successful call returns exactly `num_bytes` bytes, the
`n`-bit chunks of the value right-aligned and most significant first. -/
theorem C3_encode_n_characterisation (num_bytes n : Nat) (_hn1 : 1 ≤ n) (_hn7 : n ≤ 7) :
    (∀ i : Int, encode_n (.int i) num_bytes n =
        if i < 0 ∨ (2 : Int) ^ (n * num_bytes) ≤ i then .error .valueError
        else .ok (encodeChunks i.toNat num_bytes n)) ∧
    (∀ bs, encode_n (.bytes bs) num_bytes n =
        .ok (encodeChunks (int_from_bytes bs) num_bytes n)) ∧
    encode_n .other num_bytes n = .error .typeError ∧
    (∀ v, (encodeChunks v num_bytes n).length = num_bytes ∧
        encodeChunks v num_bytes n =
          (List.range num_bytes).reverse.map (fun i => v / 2 ^ (n * i) % 2 ^ n) ∧
        chunksVal n (encodeChunks v num_bytes n) = v % 2 ^ (n * num_bytes)) := by
  refine ⟨?_, fun bs => rfl, rfl, ?_⟩
  · intro i
    by_cases h0 : i < 0
    · simp [encode_n, h0]
    · by_cases h1 : (2 : Int) ^ (n * num_bytes) ≤ i
      · simp [encode_n, h0, h1]
      · simp [encode_n, h0, h1]
  · intro v
    exact ⟨encodeChunks_length v num_bytes n, encodeChunks_entry v num_bytes n,
      chunksVal_encodeChunks v num_bytes n⟩

/-- C3 witness: the characterisation applied at `num_bytes = 2`,
`n = 7`, checking the packing of 300 concretely. -/
theorem C3_witness :
    (1 ≤ 7 ∧ 7 ≤ 7) ∧
    encode_n (.int 300) 2 7 = .ok [2, 44] := by
  refine ⟨⟨by decide, by decide⟩, ?_⟩
  have h := (C3_encode_n_characterisation 2 7 (by decide) (by decide)).1 300
  rw [h]
  decide

/-! ### Claim C7: `from_screen_contents` -/

/-- C7 (counterexample): a 321-character string is not truncated —
`from_screen_contents` yields 322 bytes, not 321. -/
theorem C7_counterexample :
    (from_screen_contents (List.replicate 321 0x20)).length = 322 := by
  unfold from_screen_contents ljust320
  rw [List.length_replicate, if_neg (by omega), List.length_append, List.length_replicate]
  rfl

/-- C7 (amended): `from_screen_contents(s)` pads a string of at most 320
characters with spaces to the 320-character grid and appends one NUL
terminator, yielding exactly 321 bytes; a longer string is NOT truncated:
the payload is the string plus the terminator, `len(s) + 1` bytes. -/
theorem C7_from_screen_contents (s : List Nat) :
    (s.length ≤ 320 →
      from_screen_contents s = s ++ List.replicate (320 - s.length) 0x20 ++ [0] ∧
      (from_screen_contents s).length = 321) ∧
    (320 ≤ s.length →
      from_screen_contents s = s ++ [0] ∧
      (from_screen_contents s).length = s.length + 1) := by
  constructor
  · intro hle
    unfold from_screen_contents ljust320
    by_cases h : s.length < 320
    · rw [if_pos h]
      constructor
      · simp [List.append_assoc]
      · simp
        omega
    · have h320 : s.length = 320 := by omega
      rw [if_neg h]
      constructor
      · simp [h320]
      · simp [h320]
  · intro hge
    unfold from_screen_contents ljust320
    rw [if_neg (by omega)]
    simp

/-- C7 witness: the amended statement applied to the empty string (320
spaces plus terminator, 321 bytes) . -/
theorem C7_witness :
    from_screen_contents [] = [] ++ List.replicate 320 0x20 ++ [0] ∧
    (from_screen_contents []).length = 321 :=
  (C7_from_screen_contents []).1 (by decide)

/-! ### Claim C6: the object proxy's key validation -/

/-- C6: the proxy's bounds check reads `if key > 1000 or key < 1`, so the
integer key 1000 — outside the documented range `[1, 999]` — passes
validation and a `Dir` request IS built and sent on the wire, where the
claim (and the code's own error message, "ID number must be between 1 and
999, inclusive") requires a `ValueError` before any wire traffic. -/
theorem C6_key_1000_reaches_wire :
    proxyKeyCheck (.int 1000) = .ok 1000 ∧
    getitemFirstRequest 132 (.int 1000) = .ok (.Dir 132 1000) ∧
    setitemKeyCheck (.int 1000) = none := by
  exact ⟨by decide, by decide, by decide⟩

/-! ### Round-trip helper lemmas -/

theorem enc7_length (v k : Nat) : (enc7 v k).length = k := encodeChunks_length v k 7

theorem enc7_one (v : Nat) : enc7 v 1 = [v % 2 ^ 7] := encodeChunks_one v 7

theorem enc7_two (v : Nat) : enc7 v 2 = [v / 2 ^ 7 % 2 ^ 7, v % 2 ^ 7] := by
  rw [enc7, encodeChunks_entry, show (List.range 2).reverse = [1, 0] from rfl]
  simp

theorem enc7_three (v : Nat) :
    enc7 v 3 = [v / 2 ^ 14 % 2 ^ 7, v / 2 ^ 7 % 2 ^ 7, v % 2 ^ 7] := by
  rw [enc7, encodeChunks_entry, show (List.range 3).reverse = [2, 1, 0] from rfl]
  simp

theorem int_from_bytes_bytesBE (m v : Nat) (h : v < 2 ^ (8 * m)) :
    int_from_bytes (bytesBE m v) = v := by
  unfold int_from_bytes bytesBE
  rw [chunksVal_encodeChunks, Nat.mod_eq_of_lt h]

theorem decode7int_enc7 (v k : Nat) (h : v < 2 ^ (7 * k)) :
    decode7int (enc7 v k) = .ok v := by
  unfold decode7int enc7
  rw [decode_n_encodeChunks, Nat.mod_eq_of_lt h]
  have hle : 7 * k ≤ 8 * ((7 * k + 7) / 8) := by omega
  show Except.ok (int_from_bytes (bytesBE ((7 * k + 7) / 8) v)) = Except.ok v
  rw [int_from_bytes_bytesBE _ v (lt_of_lt_of_le h (Nat.pow_le_pow_right (by omega) hle))]

theorem encodeChunks_mod (v k n : Nat) :
    encodeChunks (v % 2 ^ (n * k)) k n = encodeChunks v k n := by
  rw [encodeChunks_entry, encodeChunks_entry]
  refine List.map_congr_left (fun i hi => ?_)
  simp only [List.mem_reverse, List.mem_range] at hi
  have hsplit : n * k = n * i + (n * k - n * i) := by
    have : n * i ≤ n * k := Nat.mul_le_mul_left n (by omega)
    omega
  have hpow : (2 : Nat) ^ (n * k) = 2 ^ (n * i) * 2 ^ (n * k - n * i) := by
    rw [← pow_add, ← hsplit]
  rw [hpow, Nat.mod_mul_right_div_self]
  have hdvd : (2 : Nat) ^ n ∣ 2 ^ (n * k - n * i) := by
    refine pow_dvd_pow 2 ?_
    have hmul : n * i + n ≤ n * k := by
      have h' := Nat.mul_le_mul_left n (show i + 1 ≤ k by omega)
      rw [Nat.mul_succ] at h'
      exact h'
    omega
  rw [Nat.mod_mod_of_dvd _ hdvd]

theorem encodeChunks_append (v a b n : Nat) :
    encodeChunks v (a + b) n =
      encodeChunks (v >>> (n * b)) a n ++ encodeChunks v b n := by
  induction a with
  | zero => simp [encodeChunks]
  | succ a ih =>
      have h1 : a + 1 + b = (a + b) + 1 := by omega
      rw [h1, encodeChunks_succ, ih, encodeChunks_succ]
      have h2 : v >>> (n * b) >>> (n * a) = v >>> (n * (a + b)) := by
        rw [← Nat.shiftRight_add]
        congr 1
        ring
      rw [h2]
      rfl

theorem bytesBE_length (m v : Nat) : (bytesBE m v).length = m := encodeChunks_length v m 8

theorem bytesBE_drop (a b v : Nat) : (bytesBE (a + b) v).drop a = bytesBE b v := by
  unfold bytesBE
  rw [encodeChunks_append v a b 8]
  exact List.drop_left' (encodeChunks_length _ a 8)

theorem bytesBE_int_from_bytes (l : List Nat) (h : bytesOk l = true) :
    bytesBE l.length (int_from_bytes l) = l := by
  induction l with
  | nil => rfl
  | cons c rest ih =>
      have hc : c < 256 := by
        have := (List.all_eq_true.mp h) c (by simp)
        simpa using this
      have hrest : bytesOk rest = true := by
        rw [bytesOk, List.all_eq_true]
        intro x hx
        exact (List.all_eq_true.mp h) x (by simp [hx])
      have hCV : chunksVal 8 rest < 2 ^ (8 * rest.length) := by
        refine chunksVal_lt 8 rest (fun x hx => ?_)
        have := (List.all_eq_true.mp hrest) x hx
        simpa using this
      rw [List.length_cons]
      unfold int_from_bytes
      rw [chunksVal_cons]
      unfold bytesBE
      rw [encodeChunks_succ]
      congr 1
      case _ =>
        -- head byte
        rw [Nat.shiftRight_eq_div_pow, Nat.and_pow_two_sub_one_eq_mod]
        rw [Nat.mul_comm c (2 ^ (8 * rest.length)),
          Nat.mul_add_div (Nat.pos_pow_of_pos _ (by omega)), Nat.div_eq_of_lt hCV,
          Nat.add_zero]
        exact Nat.mod_eq_of_lt hc
      case _ =>
        -- tail bytes
        rw [← encodeChunks_mod _ rest.length 8]
        rw [Nat.mul_comm c (2 ^ (8 * rest.length)), Nat.mul_add_mod,
          Nat.mod_eq_of_lt hCV]
        exact ih hrest

theorem bytesOk_int_from_bytes_lt (l : List Nat) (h : bytesOk l = true) :
    int_from_bytes l < 2 ^ (8 * l.length) := by
  refine chunksVal_lt 8 l (fun x hx => ?_)
  have := (List.all_eq_true.mp h) x hx
  simpa using this

/-- The data-payload round trip used by `Load`/`Write`: unpacking the
packed payload and taking the last `len(data)` bytes recovers `data`. -/
theorem packed_roundtrip (form : Nat) (data : List Nat)
    (hf : isEncodingFormat form = true) (hd : bytesOk data = true) :
    ∃ dec, decode_n (packedData form data) (if form == 0 then 4 else 7) = .ok dec ∧
      takeLastPy dec data.length = data := by
  have hV := bytesOk_int_from_bytes_lt data hd
  have hform : form = 0 ∨ form = 1 := by
    unfold isEncodingFormat at hf
    simp only [Bool.or_eq_true, beq_iff_eq] at hf
    exact hf
  rcases hform with h0 | h1
  · -- Nibblized: ceil(L*8/4) = 2L four-bit chunks, decoded back to L bytes
    subst h0
    show ∃ dec,
      decode_n (encodeChunks (int_from_bytes data) ((data.length * 8 + 3) / 4) 4) 4 = .ok dec ∧
      takeLastPy dec data.length = data
    rw [show (data.length * 8 + 3) / 4 = 2 * data.length by omega, decode_n_encodeChunks,
      show (4 * (2 * data.length) + 7) / 8 = data.length by omega,
      Nat.mod_eq_of_lt (lt_of_lt_of_le hV (Nat.pow_le_pow_right (by omega) (by omega)))]
    refine ⟨_, rfl, ?_⟩
    by_cases hL0 : data.length = 0
    · rw [List.length_eq_zero.mp hL0]
      rfl
    · unfold takeLastPy
      rw [if_neg hL0, bytesBE_length, Nat.sub_self, List.drop_zero]
      exact bytesBE_int_from_bytes data hd
  · -- BitStream: ceil(L*8/7) seven-bit chunks, decoded to ceil(7k/8) ≥ L bytes
    subst h1
    show ∃ dec,
      decode_n (encodeChunks (int_from_bytes data) ((data.length * 8 + 6) / 7) 7) 7 = .ok dec ∧
      takeLastPy dec data.length = data
    have hkL : 8 * data.length ≤ 7 * ((data.length * 8 + 6) / 7) := by omega
    rw [decode_n_encodeChunks,
      Nat.mod_eq_of_lt (lt_of_lt_of_le hV (Nat.pow_le_pow_right (by omega) hkL))]
    refine ⟨_, rfl, ?_⟩
    by_cases hL0 : data.length = 0
    · have hM0 : (7 * ((data.length * 8 + 6) / 7) + 7) / 8 = 0 := by omega
      rw [hM0, List.length_eq_zero.mp hL0]
      rfl
    · have hML : data.length ≤ (7 * ((data.length * 8 + 6) / 7) + 7) / 8 := by omega
      unfold takeLastPy
      rw [if_neg hL0, bytesBE_length]
      have hbytes : bytesBE ((7 * ((data.length * 8 + 6) / 7) + 7) / 8) (int_from_bytes data) =
          bytesBE (((7 * ((data.length * 8 + 6) / 7) + 7) / 8 - data.length) + data.length)
            (int_from_bytes data) := by
        congr 1
        omega
      rw [hbytes, bytesBE_drop, bytesBE_int_from_bytes data hd]

theorem drop_app {α : Type} (l₁ l₂ : List α) (k n : Nat) (h : l₁.length = k) :
    (l₁ ++ l₂).drop (k + n) = l₂.drop n := by
  subst h
  induction l₁ with
  | nil => simp
  | cons a rest ih =>
      simp only [List.cons_append, List.length_cons]
      rw [show rest.length + 1 + n = (rest.length + n) + 1 by omega, List.drop_succ_cons]
      exact ih

theorem take_len {α : Type} (l : List α) (k : Nat) (h : l.length = k) : l.take k = l := by
  subst h
  exact List.take_length l

theorem get?_app {α : Type} (l₁ l₂ : List α) (k n : Nat) (h : l₁.length = k) :
    (l₁ ++ l₂).get? (k + n) = l₂.get? n := by
  rw [List.get?_eq_getElem?, List.get?_eq_getElem?,
    List.getElem?_append_right (by omega : l₁.length ≤ k + n), h]
  congr 1
  omega

theorem get?_app0 {α : Type} (l₁ : List α) (x : α) (l₂ : List α) (k : Nat)
    (h : l₁.length = k) : (l₁ ++ x :: l₂).get? k = some x := by
  rw [List.get?_eq_getElem?, List.getElem?_append_right (by omega : l₁.length ≤ k), h,
    Nat.sub_self]
  simp

theorem isObjectType_lt (t : Nat) (h : isObjectType t = true) : t < 2 ^ 14 := by
  unfold isObjectType at h
  simp only [Bool.or_eq_true, beq_iff_eq] at h
  rcases h with h|h|h|h|h|h|h|h|h|h <;> omega

theorem isEncodingFormat_lt (f : Nat) (h : isEncodingFormat f = true) : f < 2 ^ 7 := by
  unfold isEncodingFormat at h
  simp only [Bool.or_eq_true, beq_iff_eq] at h
  rcases h with h|h <;> omega

theorem isWriteMode_lt (m : Nat) (h : isWriteMode m = true) : m < 2 ^ 7 := by
  unfold isWriteMode at h
  simp only [Bool.or_eq_true, beq_iff_eq] at h
  rcases h with h|h <;> omega

theorem isErrorCode_lt (c : Nat) (h : isErrorCode c = true) : c < 2 ^ 7 := by
  unfold isErrorCode at h
  simp only [Bool.and_eq_true, decide_eq_true_eq] at h
  omega

theorem objectTypeE_ok (v : Nat) (h : isObjectType v = true) : objectTypeE v = .ok v := by
  unfold objectTypeE
  rw [h]
  rfl

theorem encodingFormatE_ok (v : Nat) (h : isEncodingFormat v = true) :
    encodingFormatE v = .ok v := by
  unfold encodingFormatE
  rw [h]
  rfl

theorem writeModeE_ok (v : Nat) (h : isWriteMode v = true) : writeModeE v = .ok v := by
  unfold writeModeE
  rw [h]
  rfl

theorem errorCodeE_ok (v : Nat) (h : isErrorCode v = true) : errorCodeE v = .ok v := by
  unfold errorCodeE
  rw [h]
  rfl

theorem getE_eq {l : List Nat} {i x : Nat} (h : l.get? i = some x) : getE l i = .ok x := by
  unfold getE
  rw [h]

theorem enc7_one_lt (v : Nat) (h : v < 2 ^ 7) : enc7 v 1 = [v] := by
  rw [enc7_one, Nat.mod_eq_of_lt h]

theorem roundtrip_Dump (t i o s f : Nat) (ht : isObjectType t = true)
    (hi : i < 2 ^ 14) (ho : o < 2 ^ 21) (hs : s < 2 ^ 21)
    (hf : isEncodingFormat f = true) :
    decodeBodyDump ((Msg.Dump t i o s f).encodeBody) = .ok (Msg.Dump t i o s f) := by
  have hT : t < 2 ^ 14 := isObjectType_lt t ht
  have hF : f < 2 ^ 7 := isEncodingFormat_lt f hf
  have hbody : (Msg.Dump t i o s f).encodeBody
      = enc7 t 2 ++ (enc7 i 2 ++ (enc7 o 3 ++ (enc7 s 3 ++ enc7 f 1))) := by
    simp only [Msg.encodeBody, List.append_assoc]
  rw [hbody]
  set body := enc7 t 2 ++ (enc7 i 2 ++ (enc7 o 3 ++ (enc7 s 3 ++ enc7 f 1))) with hb
  have e1 : body.take 2 = enc7 t 2 := List.take_left' (enc7_length t 2)
  have e2 : (body.drop 2).take 2 = enc7 i 2 := by
    rw [hb, List.drop_left' (enc7_length t 2), List.take_left' (enc7_length i 2)]
  have e3 : (body.drop 4).take 3 = enc7 o 3 := by
    rw [hb, show (4 : Nat) = 2 + 2 from rfl, drop_app _ _ 2 2 (enc7_length t 2),
      List.drop_left' (enc7_length i 2), List.take_left' (enc7_length o 3)]
  have e4 : (body.drop 7).take 3 = enc7 s 3 := by
    rw [hb, show (7 : Nat) = 2 + 5 from rfl, drop_app _ _ 2 5 (enc7_length t 2),
      show (5 : Nat) = 2 + 3 from rfl, drop_app _ _ 2 3 (enc7_length i 2),
      List.drop_left' (enc7_length o 3), List.take_left' (enc7_length s 3)]
  have e5 : body.get? 10 = some f := by
    rw [hb, show (10 : Nat) = 2 + 8 from rfl, get?_app _ _ 2 8 (enc7_length t 2),
      show (8 : Nat) = 2 + 6 from rfl, get?_app _ _ 2 6 (enc7_length i 2),
      show (6 : Nat) = 3 + 3 from rfl, get?_app _ _ 3 3 (enc7_length o 3),
      enc7_one_lt f hF]
    exact get?_app0 (enc7 s 3) f [] 3 (enc7_length s 3)
  unfold decodeBodyDump
  rw [e1, decode7int_enc7 t 2 hT, e2, decode7int_enc7 i 2 hi, e3,
    decode7int_enc7 o 3 ho, e4, decode7int_enc7 s 3 hs]
  simp only [objectTypeE_ok t ht, getE_eq e5, encodingFormatE_ok f hf]

theorem get?_drop' {α : Type} (l : List α) (n m : Nat) :
    (l.drop n).get? m = l.get? (n + m) := by
  rw [List.get?_eq_getElem?, List.get?_eq_getElem?, List.getElem?_drop]

theorem getLast?_app {α : Type} (l₁ l₂ : List α) (x : α) (h : l₂.getLast? = some x) :
    (l₁ ++ l₂).getLast? = some x := by
  rw [List.getLast?_append, h]
  rfl

theorem checksum7_lt (l : List Nat) : checksum7 l < 2 ^ 7 := by
  unfold checksum7
  rw [show (0b1111111 : Nat) = 2 ^ 7 - 1 from rfl, Nat.and_pow_two_sub_one_eq_mod]
  exact Nat.mod_lt _ (by omega)

theorem asciiDecode_ok (name : List Nat) (h : nameOk name = true) :
    asciiDecode name = .ok name := by
  unfold asciiDecode
  rw [if_pos]
  rw [List.all_eq_true]
  intro b hb
  have := (List.all_eq_true.mp h) b hb
  simp only [Bool.and_eq_true, decide_eq_true_eq] at this
  simp only [decide_eq_true_eq]
  exact this.2

theorem indexOfNul_name (name rest : List Nat) (h : ∀ b ∈ name, b ≠ 0) :
    indexOfNul (name ++ 0 :: rest) = some name.length := by
  induction name with
  | nil => rfl
  | cons b nm ih =>
      have hb : b ≠ 0 := h b (by simp)
      rw [List.cons_append, indexOfNul, if_neg (by simpa using hb),
        ih (fun x hx => h x (by simp [hx]))]
      rfl

theorem roundtrip_DataAcknowledged (t i o s : Nat) (ht : isObjectType t = true)
    (hi : i < 2 ^ 14) (ho : o < 2 ^ 21) (hs : s < 2 ^ 21) :
    decodeBodyDataAcknowledged ((Msg.DataAcknowledged t i o s).encodeBody) =
      .ok (Msg.DataAcknowledged t i o s) := by
  have hT : t < 2 ^ 14 := isObjectType_lt t ht
  have hbody : (Msg.DataAcknowledged t i o s).encodeBody
      = enc7 t 2 ++ (enc7 i 2 ++ (enc7 o 3 ++ enc7 s 3)) := by
    simp only [Msg.encodeBody, List.append_assoc]
  rw [hbody]
  set body := enc7 t 2 ++ (enc7 i 2 ++ (enc7 o 3 ++ enc7 s 3)) with hb
  have e1 : body.take 2 = enc7 t 2 := List.take_left' (enc7_length t 2)
  have e2 : (body.drop 2).take 2 = enc7 i 2 := by
    rw [hb, List.drop_left' (enc7_length t 2), List.take_left' (enc7_length i 2)]
  have e3 : (body.drop 4).take 3 = enc7 o 3 := by
    rw [hb, show (4 : Nat) = 2 + 2 from rfl, drop_app _ _ 2 2 (enc7_length t 2),
      List.drop_left' (enc7_length i 2), List.take_left' (enc7_length o 3)]
  have e4 : (body.drop 7).take 3 = enc7 s 3 := by
    rw [hb, show (7 : Nat) = 2 + 5 from rfl, drop_app _ _ 2 5 (enc7_length t 2),
      show (5 : Nat) = 2 + 3 from rfl, drop_app _ _ 2 3 (enc7_length i 2),
      List.drop_left' (enc7_length o 3), take_len _ _ (enc7_length s 3)]
  unfold decodeBodyDataAcknowledged
  rw [e1, decode7int_enc7 t 2 hT, e2, decode7int_enc7 i 2 hi, e3,
    decode7int_enc7 o 3 ho, e4, decode7int_enc7 s 3 hs]
  simp only [objectTypeE_ok t ht]

theorem roundtrip_DataNotAcknowledged (t i o s c : Nat) (ht : isObjectType t = true)
    (hi : i < 2 ^ 14) (ho : o < 2 ^ 21) (hs : s < 2 ^ 21) (hc : isErrorCode c = true) :
    decodeBodyDataNotAcknowledged ((Msg.DataNotAcknowledged t i o s c).encodeBody) =
      .ok (Msg.DataNotAcknowledged t i o s c) := by
  have hT : t < 2 ^ 14 := isObjectType_lt t ht
  have hC : c < 2 ^ 7 := isErrorCode_lt c hc
  have hbody : (Msg.DataNotAcknowledged t i o s c).encodeBody
      = enc7 t 2 ++ (enc7 i 2 ++ (enc7 o 3 ++ (enc7 s 3 ++ [c]))) := by
    simp only [Msg.encodeBody, List.append_assoc, enc7_one_lt c hC]
  rw [hbody]
  set body := enc7 t 2 ++ (enc7 i 2 ++ (enc7 o 3 ++ (enc7 s 3 ++ [c]))) with hb
  have e1 : body.take 2 = enc7 t 2 := List.take_left' (enc7_length t 2)
  have e2 : (body.drop 2).take 2 = enc7 i 2 := by
    rw [hb, List.drop_left' (enc7_length t 2), List.take_left' (enc7_length i 2)]
  have e3 : (body.drop 4).take 3 = enc7 o 3 := by
    rw [hb, show (4 : Nat) = 2 + 2 from rfl, drop_app _ _ 2 2 (enc7_length t 2),
      List.drop_left' (enc7_length i 2), List.take_left' (enc7_length o 3)]
  have e4 : (body.drop 7).take 3 = enc7 s 3 := by
    rw [hb, show (7 : Nat) = 2 + 5 from rfl, drop_app _ _ 2 5 (enc7_length t 2),
      show (5 : Nat) = 2 + 3 from rfl, drop_app _ _ 2 3 (enc7_length i 2),
      List.drop_left' (enc7_length o 3), List.take_left' (enc7_length s 3)]
  have e5 : body.get? 10 = some c := by
    rw [hb, show (10 : Nat) = 2 + 8 from rfl, get?_app _ _ 2 8 (enc7_length t 2),
      show (8 : Nat) = 2 + 6 from rfl, get?_app _ _ 2 6 (enc7_length i 2),
      show (6 : Nat) = 3 + 3 from rfl, get?_app _ _ 3 3 (enc7_length o 3)]
    exact get?_app0 (enc7 s 3) c [] 3 (enc7_length s 3)
  unfold decodeBodyDataNotAcknowledged
  rw [e1, decode7int_enc7 t 2 hT, e2, decode7int_enc7 i 2 hi, e3,
    decode7int_enc7 o 3 ho, e4, decode7int_enc7 s 3 hs]
  simp only [objectTypeE_ok t ht, getE_eq e5, errorCodeE_ok c hc]

theorem roundtrip_Dir (t i : Nat) (ht : isObjectType t = true) (hi : i < 2 ^ 14) :
    decodeBodyDir ((Msg.Dir t i).encodeBody) = .ok (Msg.Dir t i) := by
  have hT : t < 2 ^ 14 := isObjectType_lt t ht
  have hbody : (Msg.Dir t i).encodeBody = enc7 t 2 ++ enc7 i 2 := rfl
  rw [hbody]
  unfold decodeBodyDir
  rw [List.take_left' (enc7_length t 2), decode7int_enc7 t 2 hT,
    List.drop_left' (enc7_length t 2), take_len _ _ (enc7_length i 2),
    decode7int_enc7 i 2 hi]
  simp only [objectTypeE_ok t ht]

theorem roundtrip_Del (t i : Nat) (ht : isObjectType t = true) (hi : i < 2 ^ 14) :
    decodeBodyDel ((Msg.Del t i).encodeBody) = .ok (Msg.Del t i) := by
  have hT : t < 2 ^ 14 := isObjectType_lt t ht
  have hbody : (Msg.Del t i).encodeBody = enc7 t 2 ++ enc7 i 2 := rfl
  rw [hbody]
  unfold decodeBodyDel
  rw [List.take_left' (enc7_length t 2), decode7int_enc7 t 2 hT,
    List.drop_left' (enc7_length t 2), take_len _ _ (enc7_length i 2),
    decode7int_enc7 i 2 hi]
  simp only [objectTypeE_ok t ht]

theorem roundtrip_Read (t i f : Nat) (ht : isObjectType t = true)
    (hi : i < 2 ^ 14) (hf : isEncodingFormat f = true) :
    decodeBodyRead ((Msg.Read t i f).encodeBody) = .ok (Msg.Read t i f) := by
  have hT : t < 2 ^ 14 := isObjectType_lt t ht
  have hF : f < 2 ^ 7 := isEncodingFormat_lt f hf
  have hbody : (Msg.Read t i f).encodeBody = enc7 t 2 ++ (enc7 i 2 ++ [f]) := by
    simp only [Msg.encodeBody, List.append_assoc, enc7_one_lt f hF]
  rw [hbody]
  set body := enc7 t 2 ++ (enc7 i 2 ++ [f]) with hb
  have e1 : body.take 2 = enc7 t 2 := List.take_left' (enc7_length t 2)
  have e2 : (body.drop 2).take 2 = enc7 i 2 := by
    rw [hb, List.drop_left' (enc7_length t 2), List.take_left' (enc7_length i 2)]
  have e3 : body.get? 4 = some f := by
    rw [hb, show (4 : Nat) = 2 + 2 from rfl, get?_app _ _ 2 2 (enc7_length t 2)]
    exact get?_app0 (enc7 i 2) f [] 2 (enc7_length i 2)
  unfold decodeBodyRead
  rw [e1, decode7int_enc7 t 2 hT, e2, decode7int_enc7 i 2 hi]
  simp only [objectTypeE_ok t ht, getE_eq e3, encodingFormatE_ok f hf]

theorem roundtrip_ReadBank (t b f : Nat) (r : Bool) (ht : isObjectType t = true)
    (hb7 : b < 2 ^ 7) (hf : isEncodingFormat f = true) :
    decodeBodyReadBank ((Msg.ReadBank t b f r).encodeBody) =
      .ok (Msg.ReadBank t b f r) := by
  have hT : t < 2 ^ 14 := isObjectType_lt t ht
  have hF : f < 2 ^ 7 := isEncodingFormat_lt f hf
  have hR : (if r then 1 else 0) < 2 ^ 7 := by cases r <;> simp
  have hbody : (Msg.ReadBank t b f r).encodeBody
      = enc7 t 2 ++ (b :: f :: [if r then 1 else 0]) := by
    simp only [Msg.encodeBody, List.append_assoc, enc7_one_lt b hb7, enc7_one_lt f hF,
      enc7_one_lt _ hR, List.singleton_append, List.cons_append, List.nil_append]
  rw [hbody]
  set body := enc7 t 2 ++ (b :: f :: [if r then 1 else 0]) with hbdef
  have e1 : body.take 2 = enc7 t 2 := List.take_left' (enc7_length t 2)
  have e2 : body.get? 2 = some b := get?_app0 (enc7 t 2) b _ 2 (enc7_length t 2)
  have e3 : body.get? 3 = some f := by
    rw [hbdef, show (3 : Nat) = 2 + 1 from rfl, get?_app _ _ 2 1 (enc7_length t 2)]
    rfl
  have e4 : body.get? 4 = some (if r then 1 else 0) := by
    rw [hbdef, show (4 : Nat) = 2 + 2 from rfl, get?_app _ _ 2 2 (enc7_length t 2)]
    rfl
  unfold decodeBodyReadBank
  rw [e1, decode7int_enc7 t 2 hT]
  simp only [objectTypeE_ok t ht, getE_eq e2, getE_eq e3, getE_eq e4,
    encodingFormatE_ok f hf]
  cases r <;> simp

theorem roundtrip_DirBank (t b : Nat) (r : Bool) (ht : isObjectType t = true)
    (hb7 : b < 2 ^ 7) :
    decodeBodyDirBank ((Msg.DirBank t b r).encodeBody) = .ok (Msg.DirBank t b r) := by
  have hT : t < 2 ^ 14 := isObjectType_lt t ht
  have hR : (if r then 1 else 0) < 2 ^ 7 := by cases r <;> simp
  have hbody : (Msg.DirBank t b r).encodeBody
      = enc7 t 2 ++ (b :: [if r then 1 else 0]) := by
    simp only [Msg.encodeBody, List.append_assoc, enc7_one_lt b hb7,
      enc7_one_lt _ hR, List.singleton_append, List.cons_append, List.nil_append]
  rw [hbody]
  set body := enc7 t 2 ++ (b :: [if r then 1 else 0]) with hbdef
  have e1 : body.take 2 = enc7 t 2 := List.take_left' (enc7_length t 2)
  have e2 : body.get? 2 = some b := get?_app0 (enc7 t 2) b _ 2 (enc7_length t 2)
  have e3 : body.get? 3 = some (if r then 1 else 0) := by
    rw [hbdef, show (3 : Nat) = 2 + 1 from rfl, get?_app _ _ 2 1 (enc7_length t 2)]
    rfl
  unfold decodeBodyDirBank
  rw [e1, decode7int_enc7 t 2 hT]
  simp only [objectTypeE_ok t ht, getE_eq e2, getE_eq e3]
  cases r <;> simp

theorem roundtrip_EndOfBank (t b : Nat) (ht : isObjectType t = true) (hb7 : b < 2 ^ 7) :
    decodeBodyEndOfBank ((Msg.EndOfBank t b).encodeBody) = .ok (Msg.EndOfBank t b) := by
  have hT : t < 2 ^ 14 := isObjectType_lt t ht
  have hbody : (Msg.EndOfBank t b).encodeBody = enc7 t 2 ++ [b] := by
    simp only [Msg.encodeBody, enc7_one_lt b hb7]
  rw [hbody]
  unfold decodeBodyEndOfBank
  rw [List.take_left' (enc7_length t 2), decode7int_enc7 t 2 hT]
  simp only [objectTypeE_ok t ht,
    getE_eq (get?_app0 (enc7 t 2) b [] 2 (enc7_length t 2))]

theorem roundtrip_DelBank (t b : Nat) (ht : isObjectType t = true) (hb7 : b < 2 ^ 7) :
    decodeBodyDelBank ((Msg.DelBank t b).encodeBody) = .ok (Msg.DelBank t b) := by
  have hT : t < 2 ^ 14 := isObjectType_lt t ht
  have hbody : (Msg.DelBank t b).encodeBody = enc7 t 2 ++ [b] := by
    simp only [Msg.encodeBody, enc7_one_lt b hb7]
  rw [hbody]
  unfold decodeBodyDelBank
  rw [List.take_left' (enc7_length t 2), decode7int_enc7 t 2 hT]
  simp only [objectTypeE_ok t ht,
    getE_eq (get?_app0 (enc7 t 2) b [] 2 (enc7_length t 2))]

theorem roundtrip_MoveBank (t b nb : Nat) (ht : isObjectType t = true)
    (hb7 : b < 2 ^ 7) (hnb : nb < 2 ^ 7) :
    decodeBodyMoveBank ((Msg.MoveBank t b nb).encodeBody) =
      .ok (Msg.MoveBank t b nb) := by
  have hT : t < 2 ^ 14 := isObjectType_lt t ht
  have hbody : (Msg.MoveBank t b nb).encodeBody = enc7 t 2 ++ (b :: [nb]) := by
    simp only [Msg.encodeBody, List.append_assoc, enc7_one_lt b hb7, enc7_one_lt nb hnb,
      List.singleton_append, List.cons_append, List.nil_append]
  rw [hbody]
  set body := enc7 t 2 ++ (b :: [nb]) with hbdef
  have e2 : body.get? 2 = some b := get?_app0 (enc7 t 2) b _ 2 (enc7_length t 2)
  have e3 : body.get? 3 = some nb := by
    rw [hbdef, show (3 : Nat) = 2 + 1 from rfl, get?_app _ _ 2 1 (enc7_length t 2)]
    rfl
  unfold decodeBodyMoveBank
  rw [List.take_left' (enc7_length t 2), decode7int_enc7 t 2 hT]
  simp only [objectTypeE_ok t ht, getE_eq e2, getE_eq e3]

theorem roundtrip_MacroDone (e : Bool) :
    decodeBodyMacroDone ((Msg.MacroDone e).encodeBody) = .ok (Msg.MacroDone e) := by
  have hE : (if e then 1 else 0) < 2 ^ 7 := by cases e <;> simp
  have hbody : (Msg.MacroDone e).encodeBody = [if e then 1 else 0] := by
    simp only [Msg.encodeBody, enc7_one_lt _ hE]
  rw [hbody]
  unfold decodeBodyMacroDone
  cases e <;> rfl

theorem nameOk_nonzero (name : List Nat) (h : nameOk name = true) :
    ∀ b ∈ name, b ≠ 0 := by
  intro b hb
  have := (List.all_eq_true.mp h) b hb
  simp only [Bool.and_eq_true, decide_eq_true_eq] at this
  omega

theorem roundtrip_Info (t i s : Nat) (ir : Bool) (name : List Nat)
    (ht : isObjectType t = true) (hi : i < 2 ^ 14) (hs : s < 2 ^ 21)
    (hn : nameOk name = true) :
    decodeBodyInfo ((Msg.Info t i s ir name).encodeBody) =
      .ok (Msg.Info t i s ir name) := by
  have hT : t < 2 ^ 14 := isObjectType_lt t ht
  have hR : (if ir then 1 else 0) < 2 ^ 7 := by cases ir <;> simp
  have hbody : (Msg.Info t i s ir name).encodeBody
      = enc7 t 2 ++ (enc7 i 2 ++ (enc7 s 3 ++ ((if ir then 1 else 0) :: (name ++ [0])))) := by
    simp only [Msg.encodeBody, List.append_assoc, enc7_one_lt _ hR,
      List.singleton_append, List.cons_append, List.nil_append]
  rw [hbody]
  set body := enc7 t 2 ++ (enc7 i 2 ++ (enc7 s 3 ++ ((if ir then 1 else 0) :: (name ++ [0]))))
    with hb
  have e1 : body.take 2 = enc7 t 2 := List.take_left' (enc7_length t 2)
  have e2 : (body.drop 2).take 2 = enc7 i 2 := by
    rw [hb, List.drop_left' (enc7_length t 2), List.take_left' (enc7_length i 2)]
  have e3 : (body.drop 4).take 3 = enc7 s 3 := by
    rw [hb, show (4 : Nat) = 2 + 2 from rfl, drop_app _ _ 2 2 (enc7_length t 2),
      List.drop_left' (enc7_length i 2), List.take_left' (enc7_length s 3)]
  have e4 : body.get? 7 = some (if ir then 1 else 0) := by
    rw [hb, show (7 : Nat) = 2 + 5 from rfl, get?_app _ _ 2 5 (enc7_length t 2),
      show (5 : Nat) = 2 + 3 from rfl, get?_app _ _ 2 3 (enc7_length i 2)]
    exact get?_app0 (enc7 s 3) _ _ 3 (enc7_length s 3)
  have e5 : (body.drop 8).dropLast = name := by
    rw [hb, show (8 : Nat) = 2 + 6 from rfl, drop_app _ _ 2 6 (enc7_length t 2),
      show (6 : Nat) = 2 + 4 from rfl, drop_app _ _ 2 4 (enc7_length i 2),
      show (4 : Nat) = 3 + 1 from rfl, drop_app _ _ 3 1 (enc7_length s 3),
      List.drop_one, List.tail_cons, List.dropLast_concat]
  unfold decodeBodyInfo
  rw [e1, decode7int_enc7 t 2 hT, e2, decode7int_enc7 i 2 hi, e3,
    decode7int_enc7 s 3 hs, e5]
  simp only [objectTypeE_ok t ht, getE_eq e4, asciiDecode_ok name hn]
  cases ir <;> rfl

theorem roundtrip_New (t i s : Nat) (cr : Bool) (name : List Nat)
    (ht : isObjectType t = true) (hi : i < 2 ^ 14) (hs : s < 2 ^ 21)
    (hn : nameOk name = true) :
    decodeBodyNew ((Msg.New t i s cr name).encodeBody) =
      .ok (Msg.New t i s cr name) := by
  have hT : t < 2 ^ 14 := isObjectType_lt t ht
  have hR : (if cr then 1 else 0) < 2 ^ 7 := by cases cr <;> simp
  have hbody : (Msg.New t i s cr name).encodeBody
      = enc7 t 2 ++ (enc7 i 2 ++ (enc7 s 3 ++ ((if cr then 1 else 0) :: (name ++ [0])))) := by
    simp only [Msg.encodeBody, List.append_assoc, enc7_one_lt _ hR,
      List.singleton_append, List.cons_append, List.nil_append]
  rw [hbody]
  set body := enc7 t 2 ++ (enc7 i 2 ++ (enc7 s 3 ++ ((if cr then 1 else 0) :: (name ++ [0]))))
    with hb
  have e1 : body.take 2 = enc7 t 2 := List.take_left' (enc7_length t 2)
  have e2 : (body.drop 2).take 2 = enc7 i 2 := by
    rw [hb, List.drop_left' (enc7_length t 2), List.take_left' (enc7_length i 2)]
  have e3 : (body.drop 4).take 3 = enc7 s 3 := by
    rw [hb, show (4 : Nat) = 2 + 2 from rfl, drop_app _ _ 2 2 (enc7_length t 2),
      List.drop_left' (enc7_length i 2), List.take_left' (enc7_length s 3)]
  have e4 : body.get? 7 = some (if cr then 1 else 0) := by
    rw [hb, show (7 : Nat) = 2 + 5 from rfl, get?_app _ _ 2 5 (enc7_length t 2),
      show (5 : Nat) = 2 + 3 from rfl, get?_app _ _ 2 3 (enc7_length i 2)]
    exact get?_app0 (enc7 s 3) _ _ 3 (enc7_length s 3)
  have e5 : (body.drop 8).dropLast = name := by
    rw [hb, show (8 : Nat) = 2 + 6 from rfl, drop_app _ _ 2 6 (enc7_length t 2),
      show (6 : Nat) = 2 + 4 from rfl, drop_app _ _ 2 4 (enc7_length i 2),
      show (4 : Nat) = 3 + 1 from rfl, drop_app _ _ 3 1 (enc7_length s 3),
      List.drop_one, List.tail_cons, List.dropLast_concat]
  unfold decodeBodyNew
  rw [e1, decode7int_enc7 t 2 hT, e2, decode7int_enc7 i 2 hi, e3,
    decode7int_enc7 s 3 hs, e5]
  simp only [objectTypeE_ok t ht, getE_eq e4, asciiDecode_ok name hn]
  cases cr <;> rfl

theorem roundtrip_Change (t i nw : Nat) (name : List Nat)
    (ht : isObjectType t = true) (hi : i < 2 ^ 14) (hnw : nw < 2 ^ 14)
    (hn : nameOk name = true) :
    decodeBodyChange ((Msg.Change t i nw name).encodeBody) =
      .ok (Msg.Change t i nw name) := by
  have hT : t < 2 ^ 14 := isObjectType_lt t ht
  have hbody : (Msg.Change t i nw name).encodeBody
      = enc7 t 2 ++ (enc7 i 2 ++ (enc7 nw 2 ++ (name ++ [0]))) := by
    simp only [Msg.encodeBody, List.append_assoc]
  rw [hbody]
  set body := enc7 t 2 ++ (enc7 i 2 ++ (enc7 nw 2 ++ (name ++ [0]))) with hb
  have e1 : body.take 2 = enc7 t 2 := List.take_left' (enc7_length t 2)
  have e2 : (body.drop 2).take 2 = enc7 i 2 := by
    rw [hb, List.drop_left' (enc7_length t 2), List.take_left' (enc7_length i 2)]
  have e3 : (body.drop 4).take 2 = enc7 nw 2 := by
    rw [hb, show (4 : Nat) = 2 + 2 from rfl, drop_app _ _ 2 2 (enc7_length t 2),
      List.drop_left' (enc7_length i 2), List.take_left' (enc7_length nw 2)]
  have e4 : (body.drop 6).dropLast = name := by
    rw [hb, show (6 : Nat) = 2 + 4 from rfl, drop_app _ _ 2 4 (enc7_length t 2),
      show (4 : Nat) = 2 + 2 from rfl, drop_app _ _ 2 2 (enc7_length i 2),
      List.drop_left' (enc7_length nw 2), List.dropLast_concat]
  unfold decodeBodyChange
  rw [e1, decode7int_enc7 t 2 hT, e2, decode7int_enc7 i 2 hi, e3,
    decode7int_enc7 nw 2 hnw, e4]
  simp only [objectTypeE_ok t ht, asciiDecode_ok name hn]

theorem chunk3_cons (a : Nat) (l : List Nat) :
    chunk3 (a :: l) = ((a :: l).take 3) :: chunk3 ((a :: l).drop 3) := by
  rw [chunk3]

theorem chunk3_flatMap (evs : List ButtonEvent) :
    chunk3 (evs.flatMap ButtonEvent.encode) = evs.map ButtonEvent.encode := by
  induction evs with
  | nil => simp [chunk3]
  | cons ev rest ih =>
      rw [List.flatMap_cons, List.map_cons]
      show chunk3 (ev.event_type :: ev.button :: (ev.alpha_wheel_clicks + 64).toNat ::
        rest.flatMap ButtonEvent.encode) = _
      rw [chunk3_cons]
      show (ButtonEvent.encode ev) :: chunk3 (rest.flatMap ButtonEvent.encode) = _
      rw [ih]

theorem ButtonEvent_decode_encode (ev : ButtonEvent) (h : buttonEventOk ev = true) :
    ButtonEvent.decode (ButtonEvent.encode ev) = .ok ev := by
  unfold buttonEventOk at h
  simp only [Bool.and_eq_true, decide_eq_true_eq] at h
  obtain ⟨⟨⟨hET, hB⟩, h1⟩, h2⟩ := h
  unfold ButtonEvent.decode ButtonEvent.encode
  rw [if_neg (by simp)]
  simp only [List.getD_cons_zero, List.getD_cons_succ]
  rw [hET, hB]
  simp only [if_true]
  rw [show ((ev.alpha_wheel_clicks + 64).toNat : Int) - 64 = ev.alpha_wheel_clicks by omega]
  rw [if_neg (by omega)]

theorem decodeEventChunks_map (evs : List ButtonEvent)
    (h : evs.all buttonEventOk = true) :
    decodeEventChunks (evs.map ButtonEvent.encode) = .ok evs := by
  induction evs with
  | nil => rfl
  | cons ev rest ih =>
      have hev : buttonEventOk ev = true := (List.all_eq_true.mp h) ev (by simp)
      have hrest : rest.all buttonEventOk = true := by
        rw [List.all_eq_true]
        intro x hx
        exact (List.all_eq_true.mp h) x (by simp [hx])
      rw [List.map_cons]
      unfold decodeEventChunks
      rw [ButtonEvent_decode_encode ev hev, ih hrest]

theorem roundtrip_Panel (evs : List ButtonEvent) (h : evs.all buttonEventOk = true) :
    decodeBodyPanel ((Msg.Panel evs).encodeBody) = .ok (Msg.Panel evs) := by
  have hbody : (Msg.Panel evs).encodeBody = evs.flatMap ButtonEvent.encode := rfl
  rw [hbody]
  unfold decodeBodyPanel
  rw [chunk3_flatMap, decodeEventChunks_map evs h]

theorem drop_drop' {α : Type} (l : List α) (n m : Nat) :
    (l.drop n).drop m = l.drop (n + m) := by
  rw [List.drop_drop]

theorem getLastE_eq {l : List Nat} {x : Nat} (h : l.getLast? = some x) :
    getLastE l = .ok x := by
  unfold getLastE
  rw [h]

theorem roundtrip_Load (t i o f : Nat) (data : List Nat)
    (ht : isObjectType t = true) (hi : i < 2 ^ 14) (ho : o < 2 ^ 21)
    (hf : isEncodingFormat f = true) (hd : bytesOk data = true)
    (hL : data.length < 2 ^ 21) :
    decodeBodyLoad ((Msg.Load t i o f data).encodeBody) =
      .ok (Msg.Load t i o f data) := by
  have hT : t < 2 ^ 14 := isObjectType_lt t ht
  have hF : f < 2 ^ 7 := isEncodingFormat_lt f hf
  have hbody : (Msg.Load t i o f data).encodeBody
      = enc7 t 2 ++ (enc7 i 2 ++ (enc7 o 3 ++ (enc7 data.length 3 ++
        (f :: (packedData f data ++ [checksum7 (packedData f data)]))))) := by
    simp only [Msg.encodeBody, List.append_assoc, enc7_one_lt f hF,
      enc7_one_lt _ (checksum7_lt (packedData f data)),
      List.singleton_append, List.cons_append, List.nil_append]
  rw [hbody]
  set body := enc7 t 2 ++ (enc7 i 2 ++ (enc7 o 3 ++ (enc7 data.length 3 ++
    (f :: (packedData f data ++ [checksum7 (packedData f data)]))))) with hb
  have e1 : body.take 2 = enc7 t 2 := List.take_left' (enc7_length t 2)
  have e2 : (body.drop 2).take 2 = enc7 i 2 := by
    rw [hb, List.drop_left' (enc7_length t 2), List.take_left' (enc7_length i 2)]
  have e3 : (body.drop 4).take 3 = enc7 o 3 := by
    rw [hb, show (4 : Nat) = 2 + 2 from rfl, drop_app _ _ 2 2 (enc7_length t 2),
      List.drop_left' (enc7_length i 2), List.take_left' (enc7_length o 3)]
  have e4 : (body.drop 7).take 3 = enc7 data.length 3 := by
    rw [hb, show (7 : Nat) = 2 + 5 from rfl, drop_app _ _ 2 5 (enc7_length t 2),
      show (5 : Nat) = 2 + 3 from rfl, drop_app _ _ 2 3 (enc7_length i 2),
      List.drop_left' (enc7_length o 3), List.take_left' (enc7_length data.length 3)]
  have e5 : body.get? 10 = some f := by
    rw [hb, show (10 : Nat) = 2 + 8 from rfl, get?_app _ _ 2 8 (enc7_length t 2),
      show (8 : Nat) = 2 + 6 from rfl, get?_app _ _ 2 6 (enc7_length i 2),
      show (6 : Nat) = 3 + 3 from rfl, get?_app _ _ 3 3 (enc7_length o 3)]
    exact get?_app0 (enc7 data.length 3) f _ 3 (enc7_length data.length 3)
  have e6 : body.getLast? = some (checksum7 (packedData f data)) := by
    have hsplit : body = (enc7 t 2 ++ (enc7 i 2 ++ (enc7 o 3 ++ (enc7 data.length 3 ++
        (f :: packedData f data))))) ++ [checksum7 (packedData f data)] := by
      simp only [hb, List.append_assoc, List.cons_append]
    rw [hsplit, List.getLast?_concat]
  have e7 : (body.drop 11).dropLast = packedData f data := by
    rw [hb, show (11 : Nat) = 2 + 9 from rfl, drop_app _ _ 2 9 (enc7_length t 2),
      show (9 : Nat) = 2 + 7 from rfl, drop_app _ _ 2 7 (enc7_length i 2),
      show (7 : Nat) = 3 + 4 from rfl, drop_app _ _ 3 4 (enc7_length o 3),
      show (4 : Nat) = 3 + 1 from rfl, drop_app _ _ 3 1 (enc7_length data.length 3),
      List.drop_one, List.tail_cons, List.dropLast_concat]
  obtain ⟨dec, hdec, htake⟩ := packed_roundtrip f data hf hd
  unfold decodeBodyLoad
  rw [e1, decode7int_enc7 t 2 hT, e2, decode7int_enc7 i 2 hi, e3,
    decode7int_enc7 o 3 ho, e4, decode7int_enc7 data.length 3 hL]
  simp only [objectTypeE_ok t ht, getE_eq e5, encodingFormatE_ok f hf,
    getLastE_eq e6, e7]
  rw [if_neg (show ¬((packedData f data).sum &&& 0b1111111 ≠
    checksum7 (packedData f data)) from fun hne => hne rfl)]
  rw [hdec]
  simp only [htake]

theorem roundtrip_Write (t i mo : Nat) (name : List Nat) (f : Nat) (data : List Nat)
    (ht : isObjectType t = true) (hi : i < 2 ^ 14) (hmo : isWriteMode mo = true)
    (hn : nameOk name = true) (hf : isEncodingFormat f = true)
    (hd : bytesOk data = true) (hL : data.length < 2 ^ 21) :
    decodeBodyWrite ((Msg.Write t i mo name f data).encodeBody) =
      .ok (Msg.Write t i mo name f data) := by
  have hT : t < 2 ^ 14 := isObjectType_lt t ht
  have hF : f < 2 ^ 7 := isEncodingFormat_lt f hf
  have hM : mo < 2 ^ 7 := isWriteMode_lt mo hmo
  have hbody : (Msg.Write t i mo name f data).encodeBody
      = enc7 t 2 ++ (enc7 i 2 ++ (enc7 data.length 3 ++ (mo ::
        (name ++ (0 :: (f :: (packedData f data ++ [checksum7 (packedData f data)]))))))) := by
    simp only [Msg.encodeBody, List.append_assoc, enc7_one_lt mo hM, enc7_one_lt f hF,
      enc7_one_lt _ (checksum7_lt (packedData f data)),
      List.singleton_append, List.cons_append, List.nil_append]
  rw [hbody]
  set body := enc7 t 2 ++ (enc7 i 2 ++ (enc7 data.length 3 ++ (mo ::
    (name ++ (0 :: (f :: (packedData f data ++ [checksum7 (packedData f data)])))))))
    with hb
  have e1 : body.take 2 = enc7 t 2 := List.take_left' (enc7_length t 2)
  have e2 : (body.drop 2).take 2 = enc7 i 2 := by
    rw [hb, List.drop_left' (enc7_length t 2), List.take_left' (enc7_length i 2)]
  have e3 : (body.drop 4).take 3 = enc7 data.length 3 := by
    rw [hb, show (4 : Nat) = 2 + 2 from rfl, drop_app _ _ 2 2 (enc7_length t 2),
      List.drop_left' (enc7_length i 2), List.take_left' (enc7_length data.length 3)]
  have e4 : body.get? 7 = some mo := by
    rw [hb, show (7 : Nat) = 2 + 5 from rfl, get?_app _ _ 2 5 (enc7_length t 2),
      show (5 : Nat) = 2 + 3 from rfl, get?_app _ _ 2 3 (enc7_length i 2)]
    exact get?_app0 (enc7 data.length 3) mo _ 3 (enc7_length data.length 3)
  have e5 : body.drop 8 = name ++ (0 :: (f ::
      (packedData f data ++ [checksum7 (packedData f data)]))) := by
    rw [hb, show (8 : Nat) = 2 + 6 from rfl, drop_app _ _ 2 6 (enc7_length t 2),
      show (6 : Nat) = 2 + 4 from rfl, drop_app _ _ 2 4 (enc7_length i 2),
      show (4 : Nat) = 3 + 1 from rfl, drop_app _ _ 3 1 (enc7_length data.length 3),
      List.drop_one, List.tail_cons]
  have e6 : indexOfNul (body.drop 8) = some name.length := by
    rw [e5]
    exact indexOfNul_name name _ (nameOk_nonzero name hn)
  have e7 : (body.drop 8).take name.length = name := by
    rw [e5]
    exact List.take_left' rfl
  have e8 : body.get? (8 + name.length + 1) = some f := by
    rw [Nat.add_assoc, ← get?_drop' body 8 (name.length + 1), e5,
      get?_app name _ name.length 1 rfl]
    rfl
  have e9 : body.getLast? = some (checksum7 (packedData f data)) := by
    have hsplit : body = (enc7 t 2 ++ (enc7 i 2 ++ (enc7 data.length 3 ++ (mo ::
        (name ++ (0 :: (f :: packedData f data))))))) ++
        [checksum7 (packedData f data)] := by
      simp only [hb, List.append_assoc, List.cons_append]
    rw [hsplit, List.getLast?_concat]
  have e10 : (body.drop (8 + name.length + 2)).dropLast = packedData f data := by
    rw [show 8 + name.length + 2 = 8 + (name.length + 2) by omega,
      ← drop_drop' body 8 (name.length + 2), e5, drop_app name _ name.length 2 rfl]
    show ((packedData f data ++ [checksum7 (packedData f data)])).dropLast = _
    rw [List.dropLast_concat]
  obtain ⟨dec, hdec, htake⟩ := packed_roundtrip f data hf hd
  unfold decodeBodyWrite
  rw [e1, decode7int_enc7 t 2 hT, e2, decode7int_enc7 i 2 hi, e3,
    decode7int_enc7 data.length 3 hL]
  simp only [objectTypeE_ok t ht, getE_eq e4, writeModeE_ok mo hmo, e6, e7,
    asciiDecode_ok name hn, getE_eq e8, encodingFormatE_ok f hf,
    getLastE_eq e9, e10]
  rw [if_neg (show ¬((packedData f data).sum &&& 0b1111111 ≠
    checksum7 (packedData f data)) from fun hne => hne rfl)]
  rw [hdec]
  simp only [htake]

theorem typeMap_typeByte (k : MsgKind) : typeMap k.typeByte = some k := by
  cases k <;> rfl

theorem frame_normalize (tb : Nat) (body : List Nat) :
    K2_HEADER ++ [tb] ++ body ++ K2_FOOTER = K2_HEADER ++ (tb :: (body ++ [0xF7])) := by
  simp only [K2_FOOTER, List.append_assoc, List.singleton_append, List.cons_append,
    List.nil_append]

theorem frame_length (tb : Nat) (body : List Nat) :
    (K2_HEADER ++ (tb :: (body ++ [0xF7]))).length = body.length + 6 := by
  simp [K2_HEADER]

theorem decode_frame (tb : Nat) (body : List Nat) (k : MsgKind)
    (hk : typeMap tb = some k) :
    Msg.decode (K2_HEADER ++ [tb] ++ body ++ K2_FOOTER) =
      match decodeBodyOf k body with
      | .ok m => .ok m
      | .error e => .error (.decodeFailed (body.length + 6) k e) := by
  rw [frame_normalize]
  set data := K2_HEADER ++ (tb :: (body ++ [0xF7])) with hdata
  have hlen : data.length = body.length + 6 := frame_length tb body
  have htake : data.take K2_HEADER.length = K2_HEADER :=
    List.take_left' rfl
  have hlast : data.getLastD 0 = 0xF7 := by
    rw [hdata, List.getLastD_eq_getLast?,
      show tb :: (body ++ [0xF7]) = (tb :: body) ++ [0xF7] from by rw [List.cons_append],
      getLast?_app _ _ _ (List.getLast?_concat _)]
    rfl
  have hget : data.get? 4 = some tb := get?_app0 K2_HEADER tb _ 4 rfl
  have htb : data.getD K2_HEADER.length 0 = tb := by
    rw [show K2_HEADER.length = 4 from rfl, List.getD_eq_getElem?_getD,
      ← List.get?_eq_getElem?, hget]
    rfl
  have hsub : (data.drop (K2_HEADER.length + 1)).dropLast = body := by
    rw [hdata, show K2_HEADER.length + 1 = 4 + 1 from rfl, drop_app K2_HEADER _ 4 1 rfl,
      List.drop_one, List.tail_cons, List.dropLast_concat]
  unfold Msg.decode
  rw [if_neg (show ¬(data.length < MIN_PACKET_SIZE) from by
      rw [hlen]; simp [MIN_PACKET_SIZE, K2_HEADER, K2_FOOTER]),
    if_neg (show ¬(data.take K2_HEADER.length ≠ K2_HEADER) from fun h => h htake),
    if_neg (show ¬(data.getLastD 0 ≠ 0xF7) from fun h => h hlast)]
  simp only [htb, hk, hsub, hlen]

theorem decode_frame_ok (tb : Nat) (body : List Nat) (k : MsgKind) (m : Msg)
    (hk : typeMap tb = some k) (hbody : decodeBodyOf k body = .ok m) :
    Msg.decode (K2_HEADER ++ [tb] ++ body ++ K2_FOOTER) = .ok m := by
  rw [decode_frame tb body k hk, hbody]

theorem decode_frame_err (tb : Nat) (body : List Nat) (k : MsgKind) (e : PyErr)
    (hk : typeMap tb = some k) (hbody : decodeBodyOf k body = .error e) :
    Msg.decode (K2_HEADER ++ [tb] ++ body ++ K2_FOOTER) =
      .error (.decodeFailed (body.length + 6) k e) := by
  rw [decode_frame tb body k hk, hbody]

/-! ### Claim C1: the catalog round-trip law -/

/-- C1: for every catalog variant and every combination of field values
within its declared domain (object-type enumerants, 14-bit IDs, in-range
offsets/sizes/banks, enum-valued form/mode/code fields, NUL-free ASCII
names, byte buffers whose length fits the 3-byte size field), decoding
the encoded message yields a structurally equal message:
`decode(encode(m)) == m`. -/
theorem C1_decode_encode_roundtrip (m : Msg) (h : m.wfB = true) :
    Msg.decode m.encode = .ok m := by
  have henc : m.encode = K2_HEADER ++ [m.kind.typeByte] ++ m.encodeBody ++ K2_FOOTER := rfl
  rw [henc]
  refine decode_frame_ok _ _ m.kind m (typeMap_typeByte m.kind) ?_
  cases m with
  | Dump t i o s f =>
      simp only [Msg.wfB, Bool.and_eq_true, decide_eq_true_eq] at h
      obtain ⟨⟨⟨⟨ht, hi⟩, ho⟩, hs⟩, hf⟩ := h
      exact roundtrip_Dump t i o s f ht hi ho hs hf
  | Load t i o f data =>
      simp only [Msg.wfB, Bool.and_eq_true, decide_eq_true_eq] at h
      obtain ⟨⟨⟨⟨⟨ht, hi⟩, ho⟩, hf⟩, hd⟩, hL⟩ := h
      exact roundtrip_Load t i o f data ht hi ho hf hd hL
  | DataAcknowledged t i o s =>
      simp only [Msg.wfB, Bool.and_eq_true, decide_eq_true_eq] at h
      obtain ⟨⟨⟨ht, hi⟩, ho⟩, hs⟩ := h
      exact roundtrip_DataAcknowledged t i o s ht hi ho hs
  | DataNotAcknowledged t i o s c =>
      simp only [Msg.wfB, Bool.and_eq_true, decide_eq_true_eq] at h
      obtain ⟨⟨⟨⟨ht, hi⟩, ho⟩, hs⟩, hc⟩ := h
      exact roundtrip_DataNotAcknowledged t i o s c ht hi ho hs hc
  | Dir t i =>
      simp only [Msg.wfB, Bool.and_eq_true, decide_eq_true_eq] at h
      obtain ⟨ht, hi⟩ := h
      exact roundtrip_Dir t i ht hi
  | Info t i s ir name =>
      simp only [Msg.wfB, Bool.and_eq_true, decide_eq_true_eq] at h
      obtain ⟨⟨⟨ht, hi⟩, hs⟩, hn⟩ := h
      exact roundtrip_Info t i s ir name ht hi hs hn
  | New t i s cr name =>
      simp only [Msg.wfB, Bool.and_eq_true, decide_eq_true_eq] at h
      obtain ⟨⟨⟨ht, hi⟩, hs⟩, hn⟩ := h
      exact roundtrip_New t i s cr name ht hi hs hn
  | Del t i =>
      simp only [Msg.wfB, Bool.and_eq_true, decide_eq_true_eq] at h
      obtain ⟨ht, hi⟩ := h
      exact roundtrip_Del t i ht hi
  | Change t i nw name =>
      simp only [Msg.wfB, Bool.and_eq_true, decide_eq_true_eq] at h
      obtain ⟨⟨⟨ht, hi⟩, hnw⟩, hn⟩ := h
      exact roundtrip_Change t i nw name ht hi hnw hn
  | Write t i mo name f data =>
      simp only [Msg.wfB, Bool.and_eq_true, decide_eq_true_eq] at h
      obtain ⟨⟨⟨⟨⟨⟨ht, hi⟩, hmo⟩, hn⟩, hf⟩, hd⟩, hL⟩ := h
      exact roundtrip_Write t i mo name f data ht hi hmo hn hf hd hL
  | Read t i f =>
      simp only [Msg.wfB, Bool.and_eq_true, decide_eq_true_eq] at h
      obtain ⟨⟨ht, hi⟩, hf⟩ := h
      exact roundtrip_Read t i f ht hi hf
  | ReadBank t b f r =>
      simp only [Msg.wfB, Bool.and_eq_true, decide_eq_true_eq] at h
      obtain ⟨⟨ht, hb7⟩, hf⟩ := h
      exact roundtrip_ReadBank t b f r ht hb7 hf
  | DirBank t b r =>
      simp only [Msg.wfB, Bool.and_eq_true, decide_eq_true_eq] at h
      obtain ⟨ht, hb7⟩ := h
      exact roundtrip_DirBank t b r ht hb7
  | EndOfBank t b =>
      simp only [Msg.wfB, Bool.and_eq_true, decide_eq_true_eq] at h
      obtain ⟨ht, hb7⟩ := h
      exact roundtrip_EndOfBank t b ht hb7
  | DelBank t b =>
      simp only [Msg.wfB, Bool.and_eq_true, decide_eq_true_eq] at h
      obtain ⟨ht, hb7⟩ := h
      exact roundtrip_DelBank t b ht hb7
  | MoveBank t b nb =>
      simp only [Msg.wfB, Bool.and_eq_true, decide_eq_true_eq] at h
      obtain ⟨⟨ht, hb7⟩, hnb⟩ := h
      exact roundtrip_MoveBank t b nb ht hb7 hnb
  | LoadMacro => rfl
  | MacroDone e => exact roundtrip_MacroDone e
  | Panel evs =>
      simp only [Msg.wfB] at h
      exact roundtrip_Panel evs h
  | AllText => rfl
  | ParameterValue => rfl
  | ParameterName => rfl
  | GetGraphics => rfl
  | ScreenReply data => rfl

/-- C1 witness: the round-trip law applied to a concrete `Write` message
(the most intricate layout: name, form and checksummed payload). -/
theorem C1_witness :
    Msg.wfB (Msg.Write 132 123 0 [77, 121] 1 [1, 2, 3, 4]) = true ∧
    Msg.decode (Msg.Write 132 123 0 [77, 121] 1 [1, 2, 3, 4]).encode =
      .ok (Msg.Write 132 123 0 [77, 121] 1 [1, 2, 3, 4]) :=
  ⟨by decide, C1_decode_encode_roundtrip _ (by decide)⟩

theorem decodeBodyLoad_bad (t i o f : Nat) (data : List Nat) (c : Nat)
    (ht : isObjectType t = true) (hi : i < 2 ^ 14) (ho : o < 2 ^ 21)
    (hf : isEncodingFormat f = true) (hL : data.length < 2 ^ 21)
    (hc : c ≠ checksum7 (packedData f data)) :
    decodeBodyLoad (enc7 t 2 ++ (enc7 i 2 ++ (enc7 o 3 ++ (enc7 data.length 3 ++
        (f :: (packedData f data ++ [c])))))) =
      .error (.checksumMismatch (checksum7 (packedData f data)) c) := by
  have hT : t < 2 ^ 14 := isObjectType_lt t ht
  set body := enc7 t 2 ++ (enc7 i 2 ++ (enc7 o 3 ++ (enc7 data.length 3 ++
    (f :: (packedData f data ++ [c]))))) with hb
  have e1 : body.take 2 = enc7 t 2 := List.take_left' (enc7_length t 2)
  have e2 : (body.drop 2).take 2 = enc7 i 2 := by
    rw [hb, List.drop_left' (enc7_length t 2), List.take_left' (enc7_length i 2)]
  have e3 : (body.drop 4).take 3 = enc7 o 3 := by
    rw [hb, show (4 : Nat) = 2 + 2 from rfl, drop_app _ _ 2 2 (enc7_length t 2),
      List.drop_left' (enc7_length i 2), List.take_left' (enc7_length o 3)]
  have e4 : (body.drop 7).take 3 = enc7 data.length 3 := by
    rw [hb, show (7 : Nat) = 2 + 5 from rfl, drop_app _ _ 2 5 (enc7_length t 2),
      show (5 : Nat) = 2 + 3 from rfl, drop_app _ _ 2 3 (enc7_length i 2),
      List.drop_left' (enc7_length o 3), List.take_left' (enc7_length data.length 3)]
  have e5 : body.get? 10 = some f := by
    rw [hb, show (10 : Nat) = 2 + 8 from rfl, get?_app _ _ 2 8 (enc7_length t 2),
      show (8 : Nat) = 2 + 6 from rfl, get?_app _ _ 2 6 (enc7_length i 2),
      show (6 : Nat) = 3 + 3 from rfl, get?_app _ _ 3 3 (enc7_length o 3)]
    exact get?_app0 (enc7 data.length 3) f _ 3 (enc7_length data.length 3)
  have e6 : body.getLast? = some c := by
    have hsplit : body = (enc7 t 2 ++ (enc7 i 2 ++ (enc7 o 3 ++ (enc7 data.length 3 ++
        (f :: packedData f data))))) ++ [c] := by
      simp only [hb, List.append_assoc, List.cons_append]
    rw [hsplit, List.getLast?_concat]
  have e7 : (body.drop 11).dropLast = packedData f data := by
    rw [hb, show (11 : Nat) = 2 + 9 from rfl, drop_app _ _ 2 9 (enc7_length t 2),
      show (9 : Nat) = 2 + 7 from rfl, drop_app _ _ 2 7 (enc7_length i 2),
      show (7 : Nat) = 3 + 4 from rfl, drop_app _ _ 3 4 (enc7_length o 3),
      show (4 : Nat) = 3 + 1 from rfl, drop_app _ _ 3 1 (enc7_length data.length 3),
      List.drop_one, List.tail_cons, List.dropLast_concat]
  unfold decodeBodyLoad
  rw [e1, decode7int_enc7 t 2 hT, e2, decode7int_enc7 i 2 hi, e3,
    decode7int_enc7 o 3 ho, e4, decode7int_enc7 data.length 3 hL]
  simp only [objectTypeE_ok t ht, getE_eq e5, encodingFormatE_ok f hf,
    getLastE_eq e6, e7]
  rw [if_pos (show ((packedData f data).sum &&& 0b1111111) ≠ c from fun heq => hc heq.symm)]
  rfl

theorem decodeBodyWrite_bad (t i mo : Nat) (name : List Nat) (f : Nat)
    (data : List Nat) (c : Nat)
    (ht : isObjectType t = true) (hi : i < 2 ^ 14) (hmo : isWriteMode mo = true)
    (hn : nameOk name = true) (hf : isEncodingFormat f = true)
    (hL : data.length < 2 ^ 21) (hc : c ≠ checksum7 (packedData f data)) :
    decodeBodyWrite (enc7 t 2 ++ (enc7 i 2 ++ (enc7 data.length 3 ++ (mo ::
        (name ++ (0 :: (f :: (packedData f data ++ [c])))))))) =
      .error (.checksumMismatch (checksum7 (packedData f data)) c) := by
  have hT : t < 2 ^ 14 := isObjectType_lt t ht
  set body := enc7 t 2 ++ (enc7 i 2 ++ (enc7 data.length 3 ++ (mo ::
    (name ++ (0 :: (f :: (packedData f data ++ [c]))))))) with hb
  have e1 : body.take 2 = enc7 t 2 := List.take_left' (enc7_length t 2)
  have e2 : (body.drop 2).take 2 = enc7 i 2 := by
    rw [hb, List.drop_left' (enc7_length t 2), List.take_left' (enc7_length i 2)]
  have e3 : (body.drop 4).take 3 = enc7 data.length 3 := by
    rw [hb, show (4 : Nat) = 2 + 2 from rfl, drop_app _ _ 2 2 (enc7_length t 2),
      List.drop_left' (enc7_length i 2), List.take_left' (enc7_length data.length 3)]
  have e4 : body.get? 7 = some mo := by
    rw [hb, show (7 : Nat) = 2 + 5 from rfl, get?_app _ _ 2 5 (enc7_length t 2),
      show (5 : Nat) = 2 + 3 from rfl, get?_app _ _ 2 3 (enc7_length i 2)]
    exact get?_app0 (enc7 data.length 3) mo _ 3 (enc7_length data.length 3)
  have e5 : body.drop 8 = name ++ (0 :: (f :: (packedData f data ++ [c]))) := by
    rw [hb, show (8 : Nat) = 2 + 6 from rfl, drop_app _ _ 2 6 (enc7_length t 2),
      show (6 : Nat) = 2 + 4 from rfl, drop_app _ _ 2 4 (enc7_length i 2),
      show (4 : Nat) = 3 + 1 from rfl, drop_app _ _ 3 1 (enc7_length data.length 3),
      List.drop_one, List.tail_cons]
  have e6 : indexOfNul (body.drop 8) = some name.length := by
    rw [e5]
    exact indexOfNul_name name _ (nameOk_nonzero name hn)
  have e7 : (body.drop 8).take name.length = name := by
    rw [e5]
    exact List.take_left' rfl
  have e8 : body.get? (8 + name.length + 1) = some f := by
    rw [Nat.add_assoc, ← get?_drop' body 8 (name.length + 1), e5,
      get?_app name _ name.length 1 rfl]
    rfl
  have e9 : body.getLast? = some c := by
    have hsplit : body = (enc7 t 2 ++ (enc7 i 2 ++ (enc7 data.length 3 ++ (mo ::
        (name ++ (0 :: (f :: packedData f data))))))) ++ [c] := by
      simp only [hb, List.append_assoc, List.cons_append]
    rw [hsplit, List.getLast?_concat]
  have e10 : (body.drop (8 + name.length + 2)).dropLast = packedData f data := by
    rw [show 8 + name.length + 2 = 8 + (name.length + 2) by omega,
      ← drop_drop' body 8 (name.length + 2), e5, drop_app name _ name.length 2 rfl]
    show ((packedData f data ++ [c])).dropLast = _
    rw [List.dropLast_concat]
  unfold decodeBodyWrite
  rw [e1, decode7int_enc7 t 2 hT, e2, decode7int_enc7 i 2 hi, e3,
    decode7int_enc7 data.length 3 hL]
  simp only [objectTypeE_ok t ht, getE_eq e4, writeModeE_ok mo hmo, e6, e7,
    asciiDecode_ok name hn, getE_eq e8, encodingFormatE_ok f hf,
    getLastE_eq e9, e10]
  rw [if_pos (show ((packedData f data).sum &&& 0b1111111) ≠ c from fun heq => hc heq.symm)]
  rfl

theorem replaceChecksum_frame (tb : Nat) (B : List Nat) (cs c : Nat) :
    replaceChecksum (K2_HEADER ++ [tb] ++ (B ++ [cs]) ++ K2_FOOTER) c
      = K2_HEADER ++ [tb] ++ (B ++ [c]) ++ K2_FOOTER := by
  unfold replaceChecksum
  rw [show K2_HEADER ++ [tb] ++ (B ++ [cs]) ++ K2_FOOTER
      = (K2_HEADER ++ [tb] ++ (B ++ [cs])) ++ [0xF7] from by
        simp [K2_FOOTER, List.append_assoc],
    List.dropLast_concat,
    show K2_HEADER ++ [tb] ++ (B ++ [cs]) = (K2_HEADER ++ [tb] ++ B) ++ [cs] from by
      simp [List.append_assoc],
    List.dropLast_concat]
  simp [K2_FOOTER, List.append_assoc]

/-! ### Claim C2: checksum tampering -/

/-- C2: replacing the checksum byte (the last byte before the footer) of
any encoded in-domain `Load` or `Write` message by a different 7-bit
value makes decode fail with the wrapped `ChecksumMismatch` error naming
both the recomputed checksum and the (tampered) encoded checksum. -/
theorem C2_checksum_tamper (m : Msg) (hLW : m.kind = .Load ∨ m.kind = .Write)
    (hwf : m.wfB = true) (c' : Nat) (_hc7 : c' < 2 ^ 7) (hne : c' ≠ msgChecksum m) :
    Msg.decode (replaceChecksum m.encode c') =
      .error (.decodeFailed m.encode.length m.kind
        (.checksumMismatch (msgChecksum m) c')) := by
  cases m with
  | Load t i o f data =>
      simp only [Msg.wfB, Bool.and_eq_true, decide_eq_true_eq] at hwf
      obtain ⟨⟨⟨⟨⟨ht, hi⟩, ho⟩, hf⟩, hd⟩, hL⟩ := hwf
      have hF : f < 2 ^ 7 := isEncodingFormat_lt f hf
      have hbodyN : (Msg.Load t i o f data).encodeBody
          = enc7 t 2 ++ (enc7 i 2 ++ (enc7 o 3 ++ (enc7 data.length 3 ++
            (f :: (packedData f data ++ [checksum7 (packedData f data)]))))) := by
        simp only [Msg.encodeBody, List.append_assoc, enc7_one_lt f hF,
          enc7_one_lt _ (checksum7_lt (packedData f data)),
          List.singleton_append, List.cons_append, List.nil_append]
      have hsplit : enc7 t 2 ++ (enc7 i 2 ++ (enc7 o 3 ++ (enc7 data.length 3 ++
            (f :: (packedData f data ++ [checksum7 (packedData f data)])))))
          = (enc7 t 2 ++ (enc7 i 2 ++ (enc7 o 3 ++ (enc7 data.length 3 ++
            (f :: packedData f data))))) ++ [checksum7 (packedData f data)] := by
        simp [List.append_assoc, List.cons_append]
      have henc : (Msg.Load t i o f data).encode
          = K2_HEADER ++ [MsgKind.Load.typeByte] ++
            ((enc7 t 2 ++ (enc7 i 2 ++ (enc7 o 3 ++ (enc7 data.length 3 ++
              (f :: packedData f data))))) ++ [checksum7 (packedData f data)]) ++
            K2_FOOTER := by
        show K2_HEADER ++ [MsgKind.Load.typeByte] ++
          (Msg.Load t i o f data).encodeBody ++ K2_FOOTER = _
        rw [hbodyN, hsplit]
      rw [henc, replaceChecksum_frame]
      have hB' : (enc7 t 2 ++ (enc7 i 2 ++ (enc7 o 3 ++ (enc7 data.length 3 ++
            (f :: packedData f data))))) ++ [c']
          = enc7 t 2 ++ (enc7 i 2 ++ (enc7 o 3 ++ (enc7 data.length 3 ++
            (f :: (packedData f data ++ [c']))))) := by
        simp [List.append_assoc, List.cons_append]
      rw [hB',
        decode_frame_err MsgKind.Load.typeByte _ .Load _ (typeMap_typeByte .Load)
          (decodeBodyLoad_bad t i o f data c' ht hi ho hf hL hne)]
      have hlen : (enc7 t 2 ++ (enc7 i 2 ++ (enc7 o 3 ++ (enc7 data.length 3 ++
            (f :: (packedData f data ++ [c'])))))).length + 6
          = (K2_HEADER ++ [MsgKind.Load.typeByte] ++
            ((enc7 t 2 ++ (enc7 i 2 ++ (enc7 o 3 ++ (enc7 data.length 3 ++
              (f :: packedData f data))))) ++ [checksum7 (packedData f data)]) ++
            K2_FOOTER).length := by
        simp [K2_HEADER, K2_FOOTER, enc7_length]
        omega
      rw [hlen]
      rfl
  | Write t i mo name f data =>
      simp only [Msg.wfB, Bool.and_eq_true, decide_eq_true_eq] at hwf
      obtain ⟨⟨⟨⟨⟨⟨ht, hi⟩, hmo⟩, hn⟩, hf⟩, hd⟩, hL⟩ := hwf
      have hF : f < 2 ^ 7 := isEncodingFormat_lt f hf
      have hM : mo < 2 ^ 7 := isWriteMode_lt mo hmo
      have hbodyN : (Msg.Write t i mo name f data).encodeBody
          = enc7 t 2 ++ (enc7 i 2 ++ (enc7 data.length 3 ++ (mo ::
            (name ++ (0 :: (f :: (packedData f data ++
              [checksum7 (packedData f data)]))))))) := by
        simp only [Msg.encodeBody, List.append_assoc, enc7_one_lt mo hM,
          enc7_one_lt f hF, enc7_one_lt _ (checksum7_lt (packedData f data)),
          List.singleton_append, List.cons_append, List.nil_append]
      have hsplit : enc7 t 2 ++ (enc7 i 2 ++ (enc7 data.length 3 ++ (mo ::
            (name ++ (0 :: (f :: (packedData f data ++
              [checksum7 (packedData f data)])))))))
          = (enc7 t 2 ++ (enc7 i 2 ++ (enc7 data.length 3 ++ (mo ::
            (name ++ (0 :: (f :: packedData f data))))))) ++
            [checksum7 (packedData f data)] := by
        simp [List.append_assoc, List.cons_append]
      have henc : (Msg.Write t i mo name f data).encode
          = K2_HEADER ++ [MsgKind.Write.typeByte] ++
            ((enc7 t 2 ++ (enc7 i 2 ++ (enc7 data.length 3 ++ (mo ::
              (name ++ (0 :: (f :: packedData f data))))))) ++
              [checksum7 (packedData f data)]) ++ K2_FOOTER := by
        show K2_HEADER ++ [MsgKind.Write.typeByte] ++
          (Msg.Write t i mo name f data).encodeBody ++ K2_FOOTER = _
        rw [hbodyN, hsplit]
      rw [henc, replaceChecksum_frame]
      have hB' : (enc7 t 2 ++ (enc7 i 2 ++ (enc7 data.length 3 ++ (mo ::
            (name ++ (0 :: (f :: packedData f data))))))) ++ [c']
          = enc7 t 2 ++ (enc7 i 2 ++ (enc7 data.length 3 ++ (mo ::
            (name ++ (0 :: (f :: (packedData f data ++ [c']))))))) := by
        simp [List.append_assoc, List.cons_append]
      rw [hB',
        decode_frame_err MsgKind.Write.typeByte _ .Write _ (typeMap_typeByte .Write)
          (decodeBodyWrite_bad t i mo name f data c' ht hi hmo hn hf hL hne)]
      have hlen : (enc7 t 2 ++ (enc7 i 2 ++ (enc7 data.length 3 ++ (mo ::
            (name ++ (0 :: (f :: (packedData f data ++ [c'])))))))).length + 6
          = (K2_HEADER ++ [MsgKind.Write.typeByte] ++
            ((enc7 t 2 ++ (enc7 i 2 ++ (enc7 data.length 3 ++ (mo ::
              (name ++ (0 :: (f :: packedData f data))))))) ++
              [checksum7 (packedData f data)]) ++ K2_FOOTER).length := by
        simp [K2_HEADER, K2_FOOTER, enc7_length]
        omega
      rw [hlen]
      rfl
  | Dump t i o s f => simp [Msg.kind] at hLW
  | DataAcknowledged t i o s => simp [Msg.kind] at hLW
  | DataNotAcknowledged t i o s c => simp [Msg.kind] at hLW
  | Dir t i => simp [Msg.kind] at hLW
  | Info t i s ir name => simp [Msg.kind] at hLW
  | New t i s cr name => simp [Msg.kind] at hLW
  | Del t i => simp [Msg.kind] at hLW
  | Change t i nw name => simp [Msg.kind] at hLW
  | Read t i f => simp [Msg.kind] at hLW
  | ReadBank t b f r => simp [Msg.kind] at hLW
  | DirBank t b r => simp [Msg.kind] at hLW
  | EndOfBank t b => simp [Msg.kind] at hLW
  | DelBank t b => simp [Msg.kind] at hLW
  | MoveBank t b nb => simp [Msg.kind] at hLW
  | LoadMacro => simp [Msg.kind] at hLW
  | MacroDone e => simp [Msg.kind] at hLW
  | Panel evs => simp [Msg.kind] at hLW
  | AllText => simp [Msg.kind] at hLW
  | ParameterValue => simp [Msg.kind] at hLW
  | ParameterName => simp [Msg.kind] at hLW
  | GetGraphics => simp [Msg.kind] at hLW
  | ScreenReply data => simp [Msg.kind] at hLW

/-- C2 witness: tampering the checksum of a concrete encoded `Load`
message (true checksum 7, tampered to 8). -/
theorem C2_witness :
    ((Msg.Load 132 1 0 1 [7]).kind = .Load ∨ (Msg.Load 132 1 0 1 [7]).kind = .Write) ∧
    (Msg.Load 132 1 0 1 [7]).wfB = true ∧ (8 : Nat) < 2 ^ 7 ∧
    (8 : Nat) ≠ msgChecksum (Msg.Load 132 1 0 1 [7]) ∧
    Msg.decode (replaceChecksum (Msg.Load 132 1 0 1 [7]).encode 8) =
      .error (.decodeFailed (Msg.Load 132 1 0 1 [7]).encode.length .Load
        (.checksumMismatch (msgChecksum (Msg.Load 132 1 0 1 [7])) 8)) :=
  ⟨Or.inl rfl, by decide, by decide, by decide,
    C2_checksum_tamper (Msg.Load 132 1 0 1 [7]) (Or.inl rfl) (by decide) 8
      (by decide) (by decide)⟩

/-! ### Claim C9: empty-body variants reject non-empty bodies -/

/-- C9: for every empty-body variant (`LoadMacro` 0x10, `AllText` 0x15,
`ParameterValue` 0x16, `ParameterName` 0x17, `GetGraphics` 0x18), a frame
carrying that type byte with a non-empty body fails full decode: the
`assert not data` check raises and is surfaced as the wrapping
`DecodeFailed` error naming the variant — the extra bytes are never
silently ignored. -/
theorem C9_empty_body_rejects (t : Nat) (body : List Nat)
    (ht : t = 0x10 ∨ t = 0x15 ∨ t = 0x16 ∨ t = 0x17 ∨ t = 0x18)
    (hbody : body ≠ []) :
    ∃ k : MsgKind, typeMap t = some k ∧
      Msg.decode (K2_HEADER ++ [t] ++ body ++ K2_FOOTER) =
        .error (.decodeFailed (body.length + 6) k .assertError) := by
  have hemp : ∀ m : Msg, decodeBodyEmpty m body = .error .assertError := by
    intro m
    unfold decodeBodyEmpty
    rw [if_pos hbody]
  rcases ht with h | h | h | h | h <;> subst h
  · exact ⟨.LoadMacro, rfl, decode_frame_err _ _ .LoadMacro _ rfl (hemp _)⟩
  · exact ⟨.AllText, rfl, decode_frame_err _ _ .AllText _ rfl (hemp _)⟩
  · exact ⟨.ParameterValue, rfl, decode_frame_err _ _ .ParameterValue _ rfl (hemp _)⟩
  · exact ⟨.ParameterName, rfl, decode_frame_err _ _ .ParameterName _ rfl (hemp _)⟩
  · exact ⟨.GetGraphics, rfl, decode_frame_err _ _ .GetGraphics _ rfl (hemp _)⟩

/-- C9 witness: an `AllText` frame with a single stray body byte. -/
theorem C9_witness :
    ((0x15 : Nat) = 0x10 ∨ (0x15 : Nat) = 0x15 ∨ (0x15 : Nat) = 0x16 ∨
      (0x15 : Nat) = 0x17 ∨ (0x15 : Nat) = 0x18) ∧
    ([1] : List Nat) ≠ [] ∧
    (∃ k : MsgKind, typeMap 0x15 = some k ∧
      Msg.decode (K2_HEADER ++ [0x15] ++ [1] ++ K2_FOOTER) =
        .error (.decodeFailed (([1] : List Nat).length + 6) k .assertError)) :=
  ⟨Or.inr (Or.inl rfl), by decide,
    C9_empty_body_rejects 0x15 [1] (Or.inr (Or.inl rfl)) (by decide)⟩

/-! ### The polling loop: characterisation lemmas -/

theorem polledItems_zero (inbound : List (Option (List Nat))) :
    polledItems inbound 0 = [] := by
  simp [polledItems]

theorem polledItems_succ (inbound : List (Option (List Nat))) (k : Nat) :
    polledItems inbound (k + 1) = inbound.headD none :: polledItems inbound.tail k := by
  cases inbound with
  | nil => simp [polledItems, List.replicate_succ]
  | cons a rest =>
      simp only [polledItems, List.take_succ_cons, List.length_cons, List.headD_cons,
        List.tail_cons, List.cons_append]
      have hsub : k + 1 - (rest.length + 1) = k - rest.length := by omega
      rw [hsub]

theorem pollLoop_char (acc : Msg → Bool) (t : ℚ) :
    ∀ (fuel : Nat) (exc : Option DecodeError) (inbound : List (Option (List Nat))),
    (∀ o ∈ polledItems inbound fuel, pollItemMatches acc o = false) →
    (pollLoop acc t exc inbound fuel).1 =
      (match (List.filterMap pollItemErr (polledItems inbound fuel)).getLast? with
      | some e => RunResult.raised e
      | none => match exc with
        | some e => RunResult.raised e
        | none => RunResult.timedOut t) ∧
    (pollLoop acc t exc inbound fuel).2 = fuel := by
  intro fuel
  induction fuel with
  | zero =>
      intro exc inbound _
      rw [polledItems_zero]
      cases exc <;> exact ⟨rfl, rfl⟩
  | succ fuel ih =>
      intro exc inbound h
      have hpoll := polledItems_succ inbound fuel
      have htail : ∀ o ∈ polledItems inbound.tail fuel, pollItemMatches acc o = false :=
        fun o ho => h o (by rw [hpoll]; exact List.mem_cons_of_mem _ ho)
      have hhead : pollItemMatches acc (inbound.headD none) = false :=
        h _ (by rw [hpoll]; exact List.mem_cons_self _ _)
      rw [hpoll]
      rcases hh : inbound.headD none with _ | d
      · -- queue empty this iteration
        have hstep : pollLoop acc t exc inbound (fuel + 1)
            = ((pollLoop acc t exc inbound.tail fuel).1,
               (pollLoop acc t exc inbound.tail fuel).2 + 1) := by
          simp only [pollLoop, hh]
        rw [hstep, List.filterMap_cons_none (show pollItemErr none = none from rfl)]
        obtain ⟨ih1, ih2⟩ := ih exc inbound.tail htail
        exact ⟨ih1, by omega⟩
      · by_cases hv : has_valid_k2_headers d = true
        · cases hdec : Msg.decode d with
          | ok m =>
              have haccm : acc m = false := by
                rw [hh] at hhead
                simp only [pollItemMatches, pollItemMsg, hv, hdec, if_true] at hhead
                exact hhead
              have hstep : pollLoop acc t exc inbound (fuel + 1)
                  = ((pollLoop acc t exc inbound.tail fuel).1,
                     (pollLoop acc t exc inbound.tail fuel).2 + 1) := by
                simp only [pollLoop, hh, hv, hdec, haccm]
                rfl
              have herr : pollItemErr (some d) = none := by
                simp only [pollItemErr, hv, hdec, if_true]
              rw [hstep, List.filterMap_cons_none herr]
              obtain ⟨ih1, ih2⟩ := ih exc inbound.tail htail
              exact ⟨ih1, by omega⟩
          | error e =>
              have hstep : pollLoop acc t exc inbound (fuel + 1)
                  = ((pollLoop acc t (some e) inbound.tail fuel).1,
                     (pollLoop acc t (some e) inbound.tail fuel).2 + 1) := by
                simp only [pollLoop, hh, hv, hdec]
                rfl
              have herr : pollItemErr (some d) = some e := by
                simp only [pollItemErr, hv, hdec, if_true]
              rw [hstep, List.filterMap_cons_some herr]
              obtain ⟨ih1, ih2⟩ := ih (some e) inbound.tail htail
              refine ⟨?_, by omega⟩
              rw [ih1]
              rcases hl : (List.filterMap pollItemErr
                  (polledItems inbound.tail fuel)).getLast? with _ | x
              · rw [List.getLast?_cons, hl]
                rfl
              · rw [List.getLast?_cons, hl]
                rfl
        · have hvf : has_valid_k2_headers d = false := by
            simpa using hv
          have hstep : pollLoop acc t exc inbound (fuel + 1)
              = ((pollLoop acc t exc inbound.tail fuel).1,
                 (pollLoop acc t exc inbound.tail fuel).2 + 1) := by
            simp only [pollLoop, hh, hvf]
            rfl
          have herr : pollItemErr (some d) = none := by
            simp only [pollItemErr, hvf]
            rfl
          rw [hstep, List.filterMap_cons_none herr]
          obtain ⟨ih1, ih2⟩ := ih exc inbound.tail htail
          exact ⟨ih1, by omega⟩

theorem pollLoop_count (acc : Msg → Bool) (t : ℚ) :
    ∀ (fuel : Nat) (exc : Option DecodeError) (inbound : List (Option (List Nat))),
    (pollLoop acc t exc inbound fuel).2 ≤ fuel ∧
    ((∀ m, (pollLoop acc t exc inbound fuel).1 ≠ RunResult.ok m) →
      (pollLoop acc t exc inbound fuel).2 = fuel) := by
  intro fuel
  induction fuel with
  | zero =>
      intro exc inbound
      cases exc <;> exact ⟨Nat.le_refl 0, fun _ => rfl⟩
  | succ fuel ih =>
      intro exc inbound
      rcases hh : inbound.headD none with _ | d
      · have hstep : pollLoop acc t exc inbound (fuel + 1)
            = ((pollLoop acc t exc inbound.tail fuel).1,
               (pollLoop acc t exc inbound.tail fuel).2 + 1) := by
          simp only [pollLoop, hh]
        rw [hstep]
        obtain ⟨ih1, ih2⟩ := ih exc inbound.tail
        exact ⟨by omega, fun hok => by have := ih2 hok; omega⟩
      · by_cases hv : has_valid_k2_headers d = true
        · cases hdec : Msg.decode d with
          | ok m =>
              by_cases haccm : acc m = true
              · have hstep : pollLoop acc t exc inbound (fuel + 1)
                    = (RunResult.ok m, 1) := by
                  simp only [pollLoop, hh, hv, hdec, haccm]
                  rfl
                rw [hstep]
                refine ⟨by omega, fun hok => absurd rfl (hok m)⟩
              · have haccm' : acc m = false := by simpa using haccm
                have hstep : pollLoop acc t exc inbound (fuel + 1)
                    = ((pollLoop acc t exc inbound.tail fuel).1,
                       (pollLoop acc t exc inbound.tail fuel).2 + 1) := by
                  simp only [pollLoop, hh, hv, hdec, haccm']
                  rfl
                rw [hstep]
                obtain ⟨ih1, ih2⟩ := ih exc inbound.tail
                exact ⟨by omega, fun hok => by have := ih2 hok; omega⟩
          | error e =>
              have hstep : pollLoop acc t exc inbound (fuel + 1)
                  = ((pollLoop acc t (some e) inbound.tail fuel).1,
                     (pollLoop acc t (some e) inbound.tail fuel).2 + 1) := by
                simp only [pollLoop, hh, hv, hdec]
                rfl
              rw [hstep]
              obtain ⟨ih1, ih2⟩ := ih (some e) inbound.tail
              exact ⟨by omega, fun hok => by have := ih2 hok; omega⟩
        · have hvf : has_valid_k2_headers d = false := by simpa using hv
          have hstep : pollLoop acc t exc inbound (fuel + 1)
              = ((pollLoop acc t exc inbound.tail fuel).1,
                 (pollLoop acc t exc inbound.tail fuel).2 + 1) := by
            simp only [pollLoop, hh, hvf]
            rfl
          rw [hstep]
          obtain ⟨ih1, ih2⟩ := ih exc inbound.tail
          exact ⟨by omega, fun hok => by have := ih2 hok; omega⟩

theorem pollLoop_first_match (acc : Msg → Bool) (t : ℚ) :
    ∀ (fuel : Nat) (exc : Option DecodeError) (inbound : List (Option (List Nat)))
      (pre : List (Option (List Nat))) (d : List Nat) (m : Msg)
      (rest : List (Option (List Nat))),
    polledItems inbound fuel = pre ++ some d :: rest →
    (∀ o ∈ pre, pollItemMatches acc o = false) →
    pollItemMsg (some d) = some m → acc m = true →
    (pollLoop acc t exc inbound fuel).1 = RunResult.ok m := by
  intro fuel
  induction fuel with
  | zero =>
      intro exc inbound pre d m rest hsplit _ _ _
      rw [polledItems_zero] at hsplit
      cases pre <;> simp at hsplit
  | succ fuel ih =>
      intro exc inbound pre d m rest hsplit hpre hd haccm
      rw [polledItems_succ] at hsplit
      cases pre with
      | nil =>
          simp only [List.nil_append] at hsplit
          injection hsplit with hh htl
          by_cases hv : has_valid_k2_headers d = true
          · simp only [pollItemMsg, hv, if_true] at hd
            cases hdec : Msg.decode d with
            | ok m' =>
                rw [hdec] at hd
                have hm : m' = m := by
                  simpa using hd
                subst hm
                have hstep : pollLoop acc t exc inbound (fuel + 1)
                    = (RunResult.ok m', 1) := by
                  simp only [pollLoop, hh, hv, hdec, haccm]
                  rfl
                rw [hstep]
            | error e =>
                rw [hdec] at hd
                simp at hd
          · have hvf : has_valid_k2_headers d = false := by simpa using hv
            simp only [pollItemMsg, hvf] at hd
            simp at hd
      | cons p pre' =>
          injection hsplit with hh htl
          have hpre' : ∀ o ∈ pre', pollItemMatches acc o = false :=
            fun o ho => hpre o (by simp [ho])
          rcases p with _ | q
          · have hstep : pollLoop acc t exc inbound (fuel + 1)
                = ((pollLoop acc t exc inbound.tail fuel).1,
                   (pollLoop acc t exc inbound.tail fuel).2 + 1) := by
              simp only [pollLoop, hh]
            rw [hstep]
            exact ih exc inbound.tail pre' d m rest htl hpre' hd haccm
          · have hp : pollItemMatches acc (some q) = false := hpre (some q) (by simp)
            by_cases hv : has_valid_k2_headers q = true
            · cases hdec : Msg.decode q with
              | ok m' =>
                  have haccm' : acc m' = false := by
                    simp only [pollItemMatches, pollItemMsg, hv, hdec, if_true] at hp
                    exact hp
                  have hstep : pollLoop acc t exc inbound (fuel + 1)
                      = ((pollLoop acc t exc inbound.tail fuel).1,
                         (pollLoop acc t exc inbound.tail fuel).2 + 1) := by
                    simp only [pollLoop, hh, hv, hdec, haccm']
                    rfl
                  rw [hstep]
                  exact ih exc inbound.tail pre' d m rest htl hpre' hd haccm
              | error e =>
                  have hstep : pollLoop acc t exc inbound (fuel + 1)
                      = ((pollLoop acc t (some e) inbound.tail fuel).1,
                         (pollLoop acc t (some e) inbound.tail fuel).2 + 1) := by
                    simp only [pollLoop, hh, hv, hdec]
                    rfl
                  rw [hstep]
                  exact ih (some e) inbound.tail pre' d m rest htl hpre' hd haccm
            · have hvf : has_valid_k2_headers q = false := by simpa using hv
              have hstep : pollLoop acc t exc inbound (fuel + 1)
                  = ((pollLoop acc t exc inbound.tail fuel).1,
                     (pollLoop acc t exc inbound.tail fuel).2 + 1) := by
                simp only [pollLoop, hh, hvf]
                rfl
              rw [hstep]
              exact ih exc inbound.tail pre' d m rest htl hpre' hd haccm

/-! ### Claim C4: the polling loop's iteration budget -/

/-- C4 (counterexample): with a 0.015-second timeout and nothing inbound
the loop runs exactly one iteration, but `max(1, ceil(timeout/0.01))`
is 2 — the loop bound truncates (`int()`), it does not take the
ceiling. -/
theorem C4_counterexample :
    (send_and_receive (Msg.Dir 132 1) [] (3 / 200)).2 = 1 ∧
    max 1 (Int.toNat ⌈(3 / 200 : ℚ) / (1 / 100)⌉) = 2 := by
  have hq : ((3 : ℚ) / 200 / (1 / 100)) = 3 / 2 := by norm_num
  constructor
  · have hmax : maxIterations (3 / 200) = 1 := by
      unfold maxIterations
      rw [hq, show ⌊(3 / 2 : ℚ)⌋ = 1 from by
        rw [Int.floor_eq_iff]
        constructor <;> norm_num]
      rfl
    unfold send_and_receive
    rw [hmax]
    rfl
  · rw [hq, show ⌈(3 / 2 : ℚ)⌉ = 2 from by
      rw [Int.ceil_eq_iff]
      constructor <;> norm_num]
    rfl

/-- C4 (amended): for every nonnegative timeout the polling loop executes
at most `max(1, int(timeout / 0.01))` iterations — `int()` truncation,
not the ceiling — and exactly that many whenever no accepted response is
returned; the budget is `max(1, ⌊timeout·100⌋)` and is 1 at timeout 0
(minimum one iteration). -/
theorem C4_loop_iterations (message : Msg) (inbound : List (Option (List Nat)))
    (timeout : ℚ) (_ht : 0 ≤ timeout) :
    (send_and_receive message inbound timeout).2 ≤ maxIterations timeout ∧
    ((∀ m, (send_and_receive message inbound timeout).1 ≠ RunResult.ok m) →
      (send_and_receive message inbound timeout).2 = maxIterations timeout) ∧
    maxIterations timeout = max 1 (Int.toNat ⌊timeout * 100⌋) ∧
    maxIterations 0 = 1 := by
  obtain ⟨h1, h2⟩ := pollLoop_count (accepts message.kind) timeout
    (maxIterations timeout) none inbound
  refine ⟨h1, h2, ?_, ?_⟩
  · unfold maxIterations
    have h100 : timeout / (1 / 100 : ℚ) = timeout * 100 := by
      rw [div_eq_mul_inv]
      norm_num
    rw [h100]
  · simp [maxIterations]

/-- C4 witness: the amended statement at timeout 0 with an empty inbound
queue. -/
theorem C4_witness :
    (0 : ℚ) ≤ 0 ∧
    (send_and_receive (Msg.Dir 132 1) [] 0).2 ≤ maxIterations 0 :=
  ⟨le_refl 0, (C4_loop_iterations (Msg.Dir 132 1) [] 0 (le_refl 0)).1⟩

/-! ### Claim C5: exhaustion raises the held decode error, else Timeout -/

/-- C5: whenever the polling loop exhausts without returning an accepted
response, the client raises the most recent decode error captured from a
frame that passed the frame-marker pre-filter but failed full decode —
and only on exhaustion, never mid-loop — or, when no such frame arrived,
a `TimeoutError` naming the configured timeout. -/
theorem C5_exhaustion_behaviour (message : Msg)
    (inbound : List (Option (List Nat))) (timeout : ℚ)
    (hnomatch : ∀ o ∈ polledItems inbound (maxIterations timeout),
      pollItemMatches (accepts message.kind) o = false) :
    (send_and_receive message inbound timeout).1 =
      (match (List.filterMap pollItemErr
          (polledItems inbound (maxIterations timeout))).getLast? with
      | some e => RunResult.raised e
      | none => RunResult.timedOut timeout) ∧
    (send_and_receive message inbound timeout).2 = maxIterations timeout := by
  obtain ⟨h1, h2⟩ := pollLoop_char (accepts message.kind) timeout
    (maxIterations timeout) none inbound hnomatch
  unfold send_and_receive
  refine ⟨?_, h2⟩
  rw [h1]

/-- C5 witness: a single inbound buffer that fails the pre-filter, zero
timeout — the call times out after its one iteration. -/
theorem C5_witness :
    (∀ o ∈ polledItems [some [1, 2, 3, 4]] (maxIterations 0),
      pollItemMatches (accepts (Msg.Dir 132 1).kind) o = false) ∧
    (send_and_receive (Msg.Dir 132 1) [some [1, 2, 3, 4]] 0).1 =
      RunResult.timedOut 0 := by
  have hmax : maxIterations 0 = 1 := by simp [maxIterations]
  have hno : ∀ o ∈ polledItems [some [1, 2, 3, 4]] (maxIterations 0),
      pollItemMatches (accepts (Msg.Dir 132 1).kind) o = false := by
    rw [hmax]
    decide
  refine ⟨hno, ?_⟩
  have h := (C5_exhaustion_behaviour (Msg.Dir 132 1) [some [1, 2, 3, 4]] 0 hno).1
  rw [h, hmax]
  rfl

/-! ### Claim C10: empty response class list accepts anything -/

/-- C10: a request whose declared `_response_classes` list is empty (the
default, inherited by `AllText`, `ParameterValue`, `ParameterName`,
`GetGraphics`, …) falls back to `[SysexMessage]`: every decoded message
is accepted, and the first inbound frame that passes the pre-filter and
decodes is returned regardless of its variant. -/
theorem C10_empty_response_classes_accept_any (message : Msg)
    (hempty : message.kind.responseClasses = [])
    (inbound : List (Option (List Nat))) (timeout : ℚ)
    (pre : List (Option (List Nat))) (d : List Nat) (m : Msg)
    (rest : List (Option (List Nat)))
    (hsplit : polledItems inbound (maxIterations timeout) = pre ++ some d :: rest)
    (hpre : ∀ o ∈ pre, pollItemMsg o = none)
    (hd : pollItemMsg (some d) = some m) :
    (∀ x : Msg, accepts message.kind x = true) ∧
    (send_and_receive message inbound timeout).1 = RunResult.ok m := by
  have hacc : ∀ x : Msg, accepts message.kind x = true := by
    intro x
    unfold accepts
    rw [hempty]
  refine ⟨hacc, ?_⟩
  have hpre' : ∀ o ∈ pre, pollItemMatches (accepts message.kind) o = false := by
    intro o ho
    simp only [pollItemMatches, hpre o ho]
  exact pollLoop_first_match (accepts message.kind) timeout (maxIterations timeout)
    none inbound pre d m rest hsplit hpre' hd (hacc m)

/-- C10 witness: an `AllText` request answered by a `Dir` frame — not a
declared response type, accepted anyway under the empty-list fallback. -/
theorem C10_witness :
    (Msg.AllText.kind.responseClasses = []) ∧
    (send_and_receive Msg.AllText [some (Msg.Dir 132 1).encode] 0).1 =
      RunResult.ok (Msg.Dir 132 1) := by
  have hmax : maxIterations 0 = 1 := by simp [maxIterations]
  refine ⟨rfl, ?_⟩
  have hsplit : polledItems [some (Msg.Dir 132 1).encode] (maxIterations 0)
      = [] ++ some (Msg.Dir 132 1).encode :: [] := by
    rw [hmax]
    rfl
  have hd : pollItemMsg (some (Msg.Dir 132 1).encode) = some (Msg.Dir 132 1) := by
    have hdec : Msg.decode ((Msg.Dir 132 1).encode) = .ok (Msg.Dir 132 1) := by
      show Msg.decode (K2_HEADER ++ [MsgKind.Dir.typeByte] ++
        (Msg.Dir 132 1).encodeBody ++ K2_FOOTER) = _
      exact decode_frame_ok _ _ .Dir _ rfl (roundtrip_Dir 132 1 (by decide) (by decide))
    simp only [pollItemMsg, hdec,
      show has_valid_k2_headers ((Msg.Dir 132 1).encode) = true from by decide, if_true]
  exact (C10_empty_response_classes_accept_any Msg.AllText rfl
    [some (Msg.Dir 132 1).encode] 0 [] (Msg.Dir 132 1).encode (Msg.Dir 132 1) []
    hsplit (by intro o ho; simp at ho) hd).2
